import Mathlib

/-!
Verification of the Content field's Slate document serializer, mutation-path
resolver and deserializer (`serialiseSlateValue`, `processSerialised`,
`deserialiseToSlateValue`).

The JavaScript sources operate on JSON-ish values and Slate.js node trees.
We embed runtime values as `JsVal`, JS objects as insertion-ordered
association lists (`Data`), and Slate nodes / their JSON form as `SNode`.
Thrown exceptions are embedded as `Except JsErr`.

The generic tree walker `walkSlateNode` lives in `slate-walker.js`, which is
not among the provided sources; its dispatch is modelled from the spec
(section 4.1) and is inlined into each of the three walks below.
-/

namespace KeystoneContent

/-- A JavaScript runtime value, restricted to the JSON-ish data the Content
field manipulates.  Numbers are modelled as integers (no float arithmetic is
performed by the code under verification). -/
inductive JsVal : Type where
  | undefined : JsVal
  | null : JsVal
  | bool (b : Bool) : JsVal
  | num (n : Int) : JsVal
  | str (s : String) : JsVal
  | arr (elems : List JsVal) : JsVal
  | obj (fields : List (String × JsVal)) : JsVal
  deriving Repr

/-- A JavaScript object: an insertion-ordered list of key/value pairs.
`objSet` below never introduces duplicate keys, and lookups take the first
match, agreeing with JS property semantics for the objects built here. -/
abbrev Data := List (String × JsVal)

/-- JavaScript truthiness of a value (`!!v`). -/
def truthy : JsVal → Bool
  | .undefined => false
  | .null => false
  | .bool b => b
  | .num n => n != 0
  | .str s => s != ""
  | .arr _ => true
  | .obj _ => true

/-- Property read `o[k]` (first match), yielding `undefined` when the key
is absent. -/
def objGetD (kvs : Data) (k : String) : JsVal :=
  match kvs with
  | [] => .undefined
  | (k1, v1) :: tl => if k1 = k then v1 else objGetD tl k

/-- Does the object have the key as an own property (`k in o`)? -/
def objHasKey (kvs : Data) (k : String) : Bool :=
  match kvs with
  | [] => false
  | (k1, _) :: tl => k1 = k || objHasKey tl k

/-- Property write `o[k] = v`: replaces the value in place when the key
exists (keeping its position), appends otherwise — as JS assignment does. -/
def objSet (kvs : Data) (k : String) (v : JsVal) : Data :=
  match kvs with
  | [] => [(k, v)]
  | (k1, v1) :: tl => if k1 = k then (k, v) :: tl else (k1, v1) :: objSet tl k v

/-- Object spread-merge `{...l, ...r}`: keys of `r` overwrite those of `l`. -/
def objAssign (l r : Data) : Data :=
  r.foldl (fun acc p => objSet acc p.1 p.2) l

/-- JS strict equality `===` on the values compared by this code.
Primitives compare by value.  Objects and arrays compare by reference in JS;
distinct structural values are never the same reference, so the embedding
conservatively returns `false` for them (the code only ever compares record
ids, which are primitives). -/
def jsStrictEq : JsVal → JsVal → Bool
  | .undefined, .undefined => true
  | .null, .null => true
  | .bool a, .bool b => a == b
  | .num a, .num b => a == b
  | .str a, .str b => a == b
  | _, _ => false

/-! ## lodash.get

`processSerialised` resolves each mutation path with `getByPath`
(`lodash.get`).  For a string path lodash first checks whether the whole
string can be used as a direct key (`isKey`): that holds when the string
contains no `.` and no matched `[...]` pair, or when the whole string is
itself a property of the object.  Otherwise the string is tokenized
(`stringToPath`) and the tokens are looked up one by one.  The tokenizer is
modelled for unquoted paths, the only form this code ever produces. -/

/-- Does the character list contain a `[` followed (later) by a `]`?
Mirrors lodash's deep-property test for a bracketed segment. -/
def hasBracketPair : List Char → Bool
  | [] => false
  | '[' :: rest => rest.any (fun c => c == ']')
  | _ :: rest => hasBracketPair rest

/-- lodash `reIsDeepProp`: the path must be split when it contains a dot or
a bracketed segment. -/
def isDeepPath (cs : List Char) : Bool :=
  cs.any (fun c => c == '.') || hasBracketPair cs

mutual
/-- Tokenizer state inside a `[...]` segment. -/
def tokBracket : List Char → List Char → List String
  | [], acc => [String.mk acc]
  | c :: rest, acc =>
    if c = ']' then String.mk acc :: tokMain rest []
    else tokBracket rest (acc ++ [c])
termination_by structural cs _ => cs

/-- Tokenizer main state: `acc` is the current (possibly empty) plain
segment. -/
def tokMain : List Char → List Char → List String
  | [], acc => if acc.isEmpty then [] else [String.mk acc]
  | c :: rest, acc =>
    if c = '.' then String.mk acc :: tokMain rest []
    else if c = '[' then (if acc.isEmpty then [] else [String.mk acc]) ++ tokBracket rest []
    else if c = ']' then (if acc.isEmpty then [] else [String.mk acc]) ++ tokMain rest []
    else tokMain rest (acc ++ [c])
termination_by structural cs _ => cs
end

/-- lodash `stringToPath` on an unquoted path string. -/
def stringToPath (p : String) : List String :=
  tokMain p.data []

/-- Decimal value of a digit string, accumulator style. -/
def decDigitsVal : List Char → Nat → Option Nat
  | [], acc => some acc
  | c :: rest, acc =>
    if '0' ≤ c ∧ c ≤ '9' then decDigitsVal rest (acc * 10 + (c.toNat - '0'.toNat))
    else none

/-- `String.toNat?`, restated structurally over the character list. -/
def strToNat? (s : String) : Option Nat :=
  match s.data with
  | [] => none
  | c :: rest => decDigitsVal (c :: rest) 0

/-- One lodash `baseGet` step: read one path token off a value.
Array reads accept only canonical decimal indices (as JS property coercion
does); the `length` own property of arrays and strings is modelled. -/
def keyGet (v : JsVal) (t : String) : JsVal :=
  match v with
  | .obj kvs => objGetD kvs t
  | .arr xs =>
    match strToNat? t with
    | some i => if toString i = t then xs.getD i .undefined else .undefined
    | none => if t = "length" then .num xs.length else .undefined
  | .str s => if t = "length" then .num s.length else .undefined
  | _ => .undefined

/-- lodash `baseGet`: fold the path tokens over the value. -/
def walkTokens : List String → JsVal → JsVal
  | [], v => v
  | t :: ts, v => walkTokens ts (keyGet v t)

/-- `getByPath(object, path)` (lodash `get`) for a string path over an
object root. -/
def getByPath (m : Data) (p : String) : JsVal :=
  if ¬ isDeepPath p.data then objGetD m p
  else if objHasKey m p then objGetD m p
  else walkTokens (stringToPath p) (.obj m)

/-- `getByPath` as applied by `processSerialised` to an arbitrary
`_mutationPaths` entry.  lodash coerces a non-string, non-array path to a
single property key; array/object paths (never produced by this code) are
modelled as missing. -/
def getByPathVal (m : Data) : JsVal → JsVal
  | .str p => getByPath m p
  | .num i => objGetD m (toString i)
  | .bool b => objGetD m (cond b "true" "false")
  | .null => objGetD m "null"
  | .undefined => objGetD m "undefined"
  | _ => .undefined

/-! ## Slate nodes -/

/-- A Slate.js node and, equally, its JSON form: the code reads and writes
only the `object`, `type`, `data` and `nodes` properties; any remaining
properties are carried opaquely in `extra` (object spreads preserve them).
`data = none` models an absent `data` property, `nodes = none` an absent
`nodes` list. -/
inductive SNode : Type where
  | mk (object : String) (type : String) (data : Option Data)
      (nodes : Option (List SNode)) (extra : Data)
  deriving Repr

def SNode.object : SNode → String
  | .mk o _ _ _ _ => o

def SNode.type : SNode → String
  | .mk _ t _ _ _ => t

def SNode.data : SNode → Option Data
  | .mk _ _ d _ _ => d

def SNode.nodes : SNode → Option (List SNode)
  | .mk _ _ _ ns _ => ns

def SNode.extra : SNode → Data
  | .mk _ _ _ _ e => e

/-- Errors thrown by the code, classified by the spec's taxonomy (section 7).
Every site in the sources throws a plain `Error`; the constructor records
which taxon the spec assigns to the site, and the message's static prefix. -/
inductive JsErr : Type where
  | configuration (msg : String) : JsErr
  | precondition (msg : String) : JsErr
  | typeError (msg : String) : JsErr
  deriving Repr, DecidableEq

/-! ## Serializer (`serialiseSlateValue`) -/

/-- A Slate.js `Value`; the code only ever touches its `document`. -/
structure SlateValue where
  document : SNode

/-- The `{mutations, node}` object returned by a block handler's
`serialize`.  `mutations = none` models an absent/falsy mutations map
(spec section 6: an action-keyed map of objects or arrays of objects);
`node = none` models a missing serialized node. -/
structure SerResult where
  mutations : Option Data
  node : Option SNode

/-- The capabilities of a registered block handler that
`serialiseSlateValue` consumes: its `type` tag (used in the error message),
its declared mutation `path` (absent when undeclared) and its `serialize`
function, invoked as `block.serialize({ value, node })`. -/
structure SerBlock where
  type : String
  path : Option String
  serialize : SlateValue → SNode → SerResult

/-- `!block.path`: an absent path and the empty string are both falsy. -/
def pathFalsy : Option String → Bool
  | none => true
  | some s => s == ""

/-- `allMutations[block.path] = allMutations[block.path] || {disconnectAll: true}`. -/
def ensureBatch (muts : Data) (path : String) : Data :=
  if truthy (objGetD muts path) then muts
  else objSet muts path (.obj [("disconnectAll", .bool true)])

/-- `allMutations[block.path][action] = allMutations[block.path][action] || []`.
The batch slot is always an object here (`ensureBatch` ran first); the
catch-all arm is unreachable on the code's own flow. -/
def ensureAction (muts : Data) (path action : String) : Data :=
  match objGetD muts path with
  | .obj batch =>
    if truthy (objGetD batch action) then muts
    else objSet muts path (.obj (objSet batch action (.arr [])))
  | _ => muts

/-- `allMutations[block.path][action].push(mutation)`, returning the new
length (`insertedBefore`).  Pushing onto a non-array slot (which the code
reaches when a handler names an action `disconnectAll`) is a JS
`TypeError`. -/
def pushMutation (muts : Data) (path action : String) (m : JsVal) :
    Except JsErr (Data × Nat) :=
  match objGetD muts path with
  | .obj batch =>
    match objGetD batch action with
    | .arr xs =>
      .ok (objSet muts path (.obj (objSet batch action (.arr (xs ++ [m])))),
        xs.length + 1)
    | _ => .error (.typeError "allMutations[block.path][action].push is not a function")
  | _ => .error (.typeError "allMutations[block.path] is not an object")

/-- `Array.isArray(mutationData) ? mutationData : [mutationData]`. -/
def normalizeArr : JsVal → List JsVal
  | .arr xs => xs
  | v => [v]

/-- The inner `mutationData.forEach` loop: push each mutation into the
batch and record the generated mutation path string
`` `${block.path}.${action}[${insertedBefore - 1}]` ``. -/
def pushAll (path action : String) :
    List JsVal → Data → List String → Except JsErr (Data × List String)
  | [], muts, ps => .ok (muts, ps)
  | m :: ms, muts, ps =>
    match pushMutation muts path action m with
    | .error e => .error e
    | .ok (muts1, insertedBefore) =>
      pushAll path action ms muts1
        (ps ++ [path ++ "." ++ action ++ "[" ++ toString (insertedBefore - 1) ++ "]"])

/-- The `Object.entries(mutations).forEach` loop, in insertion order. -/
def processActions (path : String) :
    Data → Data → List String → Except JsErr (Data × List String)
  | [], muts, ps => .ok (muts, ps)
  | (action, mutationData) :: rest, muts, ps =>
    match pushAll path action (normalizeArr mutationData) (ensureAction muts path action) ps with
    | .error e => .error e
    | .ok (muts1, ps1) => processActions path rest muts1 ps1

/-- `serializedNode.data = serializedNode.data || {}` followed by
`serializedNode.data._mutationPaths = serializedNode.data._mutationPaths || []`
and the pushes of the generated path strings.  A truthy non-array
`_mutationPaths` already on the handler's node makes the first push a JS
`TypeError`; with nothing to push the slot is left as the code leaves it. -/
def attachMutationPaths (sn : SNode) (newPaths : List String) :
    Except JsErr SNode :=
  let base := sn.data.getD []
  let ensured :=
    if truthy (objGetD base "_mutationPaths") then objGetD base "_mutationPaths"
    else .arr []
  match ensured with
  | .arr xs =>
    .ok (.mk sn.object sn.type
      (some (objSet base "_mutationPaths" (.arr (xs ++ newPaths.map .str))))
      sn.nodes sn.extra)
  | v =>
    if newPaths.isEmpty then
      .ok (.mk sn.object sn.type (some (objSet base "_mutationPaths" v))
        sn.nodes sn.extra)
    else .error (.typeError "serializedNode.data._mutationPaths.push is not a function")

/-- `serialiseSlateValue`'s `visitBlock`, threading the `allMutations`
accumulator.  Returns `none` when the visitor falls through (no matching
block, or no serialized node with an empty/absent mutations map — the JS
`return serializedNode ? serializedNode : null`). -/
def serialiseVisitBlock (blocks : String → Option SerBlock) (value : SlateValue)
    (n : SNode) (muts : Data) : Except JsErr (Option SNode × Data) :=
  match blocks n.type with
  | none => .ok (none, muts)
  | some block =>
    match (block.serialize value n).mutations with
    | none => .ok ((block.serialize value n).node, muts)
    | some mkvs =>
      if mkvs.isEmpty then .ok ((block.serialize value n).node, muts)
      else
        match (block.serialize value n).node with
        | none =>
          .error (.configuration "Must return a serialized 'node' when returning 'mutations'.")
        | some sn =>
          if pathFalsy block.path then
            .error (.configuration
              ("No mutation path set for block view type '" ++ block.type ++ "'."))
          else
            match processActions (block.path.getD "") mkvs
                (ensureBatch muts (block.path.getD "")) [] with
            | .error e => .error e
            | .ok (muts1, newPaths) =>
              match attachMutationPaths sn newPaths with
              | .error e => .error e
              | .ok sn1 => .ok (some sn1, muts1)

mutual
/-- Modelled from the spec: `walkSlateNode` (slate-walker.js, not among the
provided sources) calls `visitBlock` on block-kind nodes
(`node.object === 'block'`); a non-null/non-undefined return replaces the
node without visiting its subtree, a null/undefined return falls through to
`defaultVisitor`; every other node goes straight to `defaultVisitor`, which
is handed the walk itself for recursion into children (spec section 4.1).
This instance inlines `serialiseSlateValue`'s two visitors; the
`defaultVisitor` branches are the body of `serDefaultVisitor` below
(`shallowNodeToJson`, then the walked children assigned over the emptied
`nodes` list). -/
def serWalk (blocks : String → Option SerBlock) (value : SlateValue)
    (n : SNode) (muts : Data) : Except JsErr (SNode × Data) :=
  match n with
  | .mk o t d ns ex =>
    if o = "block" then
      match serialiseVisitBlock blocks value (.mk o t d ns ex) muts with
      | .error e => .error e
      | .ok (some r, muts1) => .ok (r, muts1)
      | .ok (none, muts1) =>
        match ns with
        | none => .ok (.mk o t d none ex, muts1)
        | some cs =>
          match serWalkList blocks value cs muts1 with
          | .error e => .error e
          | .ok (cs1, muts2) => .ok (.mk o t d (some cs1) ex, muts2)
    else
      match ns with
      | none => .ok (.mk o t d none ex, muts)
      | some cs =>
        match serWalkList blocks value cs muts with
        | .error e => .error e
        | .ok (cs1, muts2) => .ok (.mk o t d (some cs1) ex, muts2)
termination_by structural n

/-- `node.nodes.map(childNode => visitNode(childNode))`: the children are
walked left to right, threading the mutation accumulator. -/
def serWalkList (blocks : String → Option SerBlock) (value : SlateValue)
    (l : List SNode) (muts : Data) : Except JsErr (List SNode × Data) :=
  match l with
  | [] => .ok ([], muts)
  | c :: cs =>
    match serWalk blocks value c muts with
    | .error e => .error e
    | .ok (c1, muts1) =>
      match serWalkList blocks value cs muts1 with
      | .error e => .error e
      | .ok (cs1, muts2) => .ok (c1 :: cs1, muts2)
termination_by structural l
end

/-- `serialiseSlateValue`'s `defaultVisitor`: `shallowNodeToJson` (the
node's JSON form with the `nodes` list emptied to avoid eager recursion),
then, when a child list is present, `visitedNode.nodes` is assigned the
walked children. -/
def serDefaultVisitor (blocks : String → Option SerBlock) (value : SlateValue)
    (n : SNode) (muts : Data) : Except JsErr (SNode × Data) :=
  match n with
  | .mk o t d none ex => .ok (.mk o t d none ex, muts)
  | .mk o t d (some cs) ex =>
    match serWalkList blocks value cs muts with
    | .error e => .error e
    | .ok (cs1, muts1) => .ok (.mk o t d (some cs1) ex, muts1)

/-- The walker dispatch, restated through `serDefaultVisitor`: a visitor
fall-through (`none`) and a non-block node both take the default path. -/
theorem serWalk_eq (blocks : String → Option SerBlock) (value : SlateValue)
    (n : SNode) (muts : Data) :
    serWalk blocks value n muts =
      if n.object = "block" then
        match serialiseVisitBlock blocks value n muts with
        | .error e => .error e
        | .ok (some r, muts1) => .ok (r, muts1)
        | .ok (none, muts1) => serDefaultVisitor blocks value n muts1
      else serDefaultVisitor blocks value n muts := by
  cases n with
  | mk o t d ns ex => cases ns <;> rfl

/-- The value of `serialiseSlateValue`: the JS code returns the single object
`{ document: serializedDocument, ...allMutations }`; the embedding keeps the
document and the batch map as the two components of that object.  (Were a
block's `path` the literal string `"document"`, the spread would overwrite
the document key; no claim exercises that collision.) -/
structure SerialiseResult where
  document : SNode
  batches : Data
  deriving Repr

/-- `serialiseSlateValue(value, blocks)` (src part_002): walk the document
accumulating per-path mutation batches, starting from an empty
`allMutations`. -/
def serialiseSlateValue (value : SlateValue) (blocks : String → Option SerBlock) :
    Except JsErr SerialiseResult :=
  match serWalk blocks value value.document [] with
  | .error e => .error e
  | .ok (doc, muts) => .ok ⟨doc, muts⟩

/-! ## Mutation-path resolver (`processSerialised`) -/

/-- The block-handler capabilities `processSerialised` consumes: the `type`
tag (the handlers are searched with `blocks.find`) and
`getMutationOperationResults(graphQlArgs)`, each handler's own path-keyed
result map. -/
structure ResBlock where
  type : String
  getMutationOperationResults : JsVal → Data

/-- The `blocks.reduce` spread-merge of every handler's
`getMutationOperationResults`: later handlers' keys overwrite earlier
ones. -/
def resolvedMutationsOf (blocks : List ResBlock) (graphQlArgs : JsVal) : Data :=
  blocks.foldl (fun acc b => objAssign acc (b.getMutationOperationResults graphQlArgs)) []

/-- `!node.data || !node.data._mutationPaths` — negated: the node carries a
truthy `_mutationPaths`. -/
def carriesMutationPaths (n : SNode) : Bool :=
  match n.data with
  | none => false
  | some kvs => truthy (objGetD kvs "_mutationPaths")

/-- Display form of a mutation-path value for the error message. -/
def pathText : JsVal → String
  | .str s => s
  | _ => ""

/-- The `node.data._mutationPaths.map` body: `getByPath` into the combined
results, throwing on a falsy result. -/
def resolveJoinIds (resolved : Data) : List JsVal → Except JsErr (List JsVal)
  | [] => .ok []
  | p :: ps =>
    let joinId := getByPathVal resolved p
    if truthy joinId then
      match resolveJoinIds resolved ps with
      | .error e => .error e
      | .ok rest => .ok (joinId :: rest)
    else
      .error (.configuration
        ("Slate document refers to unknown mutation '" ++ pathText p ++ "'."))

/-- `processSerialised`'s `visitBlock`: nodes without a truthy
`data._mutationPaths` are passed through as-is (the walker then does not
descend into them); carrying nodes look up their handler by `type`, resolve
every path, and are replaced by `{...node, data: {_joinIds}}`.  This visitor
never returns null, so the walker's fall-through to `defaultVisitor` is
unreachable from it. -/
def resolveVisitBlock (blocks : List ResBlock) (resolved : Data) (n : SNode) :
    Except JsErr SNode :=
  if ¬ carriesMutationPaths n then .ok n
  else
    match blocks.find? (fun b => b.type == n.type) with
    | none =>
      .error (.configuration
        ("Received mutation for " ++ n.type ++ ", but no block types can handle it."))
    | some _ =>
      match objGetD (n.data.getD []) "_mutationPaths" with
      | .arr ps =>
        match resolveJoinIds resolved ps with
        | .error e => .error e
        | .ok ids =>
          .ok (.mk n.object n.type (some [("_joinIds", .arr ids)]) n.nodes n.extra)
      | _ => .error (.typeError "node.data._mutationPaths.map is not a function")

mutual
/-- Modelled from the spec: the `walkSlateNode` dispatch (section 4.1)
inlined with `processSerialised`'s visitors.  `visitBlock` never returns
null here, so block-kind nodes never reach the default branches (the body
of `resDefaultVisitor` below). -/
def resWalk (blocks : List ResBlock) (resolved : Data) (n : SNode) :
    Except JsErr SNode :=
  match n with
  | .mk o t d ns ex =>
    if o = "block" then resolveVisitBlock blocks resolved (.mk o t d ns ex)
    else
      match ns with
      | none => .ok (.mk o t d none ex)
      | some cs =>
        match resWalkList blocks resolved cs with
        | .error e => .error e
        | .ok cs1 => .ok (.mk o t d (some cs1) ex)
termination_by structural n

def resWalkList (blocks : List ResBlock) (resolved : Data) (l : List SNode) :
    Except JsErr (List SNode) :=
  match l with
  | [] => .ok []
  | c :: cs =>
    match resWalk blocks resolved c with
    | .error e => .error e
    | .ok c1 =>
      match resWalkList blocks resolved cs with
      | .error e => .error e
      | .ok cs1 => .ok (c1 :: cs1)
termination_by structural l
end

/-- `processSerialised`'s `defaultVisitor`: when a child list is present the
code assigns `node.nodes = node.nodes.map(visitNode)` — an in-place update
of the input node — and returns that same node.  The returned tree is
modelled here; see `processSerialisedInputAfter` for the input's state. -/
def resDefaultVisitor (blocks : List ResBlock) (resolved : Data) (n : SNode) :
    Except JsErr SNode :=
  match n with
  | .mk o t d none ex => .ok (.mk o t d none ex)
  | .mk o t d (some cs) ex =>
    match resWalkList blocks resolved cs with
    | .error e => .error e
    | .ok cs1 => .ok (.mk o t d (some cs1) ex)

/-- The walker dispatch of the resolver, restated through
`resDefaultVisitor`. -/
theorem resWalk_eq (blocks : List ResBlock) (resolved : Data) (n : SNode) :
    resWalk blocks resolved n =
      if n.object = "block" then resolveVisitBlock blocks resolved n
      else resDefaultVisitor blocks resolved n := by
  cases n with
  | mk o t d ns ex => cases ns <;> rfl

/-- `processSerialised(document, blocks, graphQlArgs)` (src part_001): merge
every handler's mutation results, then walk the document.  The JS function
returns `{document: walked}`; the embedding returns the walked document. -/
def processSerialised (document : SNode) (blocks : List ResBlock)
    (graphQlArgs : JsVal) : Except JsErr SNode :=
  resWalk blocks (resolvedMutationsOf blocks graphQlArgs) document

/-- The state of the caller's `document` object after a successful
`processSerialised` call.  `visitBlock` never writes to the nodes it
receives, but `defaultVisitor` assigns `node.nodes` in place and returns the
very same object, so a non-block root is mutated into the returned tree; a
block-kind root is returned or replaced without being written to.  (After a
thrown error the input may be partially mutated; that state is not
modelled.) -/
def processSerialisedInputAfter (document : SNode) (blocks : List ResBlock)
    (graphQlArgs : JsVal) : Option SNode :=
  match processSerialised document blocks graphQlArgs with
  | .error _ => none
  | .ok walked => some (if document.object = "block" then document else walked)

/-! ## Deserializer (`deserialiseToSlateValue`) -/

/-- The block-handler capabilities `deserialiseToSlateValue` consumes.
`deserialize` is invoked as `block.deserialize({node, joins})` and returns a
Slate node or null/undefined (spec section 6); the code's subsequent
`Node.isNode` check always passes for values of this interface, so the
`TypeError` it guards is unrepresentable here. -/
structure DesBlock where
  path : Option String
  deserialize : SNode → List JsVal → Option SNode

/-- `serializations[block.path]` with an undefined `path` reads the
property named `"undefined"`, per JS key coercion. -/
def desPathKey : Option String → String
  | some s => s
  | none => "undefined"

/-- The record-id read in `data.find(({ id }) => joinId === id)`:
destructuring a null/undefined record throws, a primitive yields
`undefined`. -/
def recordId : JsVal → Except JsErr JsVal
  | .null => .error (.typeError "Cannot destructure property 'id' of null")
  | .undefined => .error (.typeError "Cannot destructure property 'id' of undefined")
  | .obj kvs => .ok (objGetD kvs "id")
  | _ => .ok .undefined

/-- `data.find(({ id }) => joinId === id)`: first match, `undefined` when no
record matches. -/
def findRecord (recs : List JsVal) (joinId : JsVal) : Except JsErr JsVal :=
  match recs with
  | [] => .ok .undefined
  | r :: rs =>
    match recordId r with
    | .error e => .error e
    | .ok i => if jsStrictEq joinId i then .ok r else findRecord rs joinId

/-- `(nodeData && nodeData.size && nodeData.get('_joinIds'))`: parsed nodes
carry their `data` as an immutable map whose `size` is falsy exactly when it
is empty. -/
def joinIdsVal (n : SNode) : JsVal :=
  match n.data with
  | none => .undefined
  | some kvs => if kvs.isEmpty then .undefined else objGetD kvs "_joinIds"

/-- The `.map(joinId => data.find(...))` loop.  `data` (the fetched record
list for the block's path) is only touched when there is at least one join
id; a non-array `data` then throws. -/
def computeJoins (recsVal : JsVal) (ids : List JsVal) : Except JsErr (List JsVal) :=
  match ids with
  | [] => .ok []
  | id :: rest =>
    match recsVal with
    | .arr recs =>
      match findRecord recs id with
      | .error e => .error e
      | .ok j =>
        match computeJoins recsVal rest with
        | .error e => .error e
        | .ok js => .ok (j :: js)
    | _ => .error (.typeError "data.find is not a function")

/-- `deserialiseToSlateValue`'s `visitBlock`.  `none` models the falsy
return that falls through to the default visitor (no matching block, or the
handler deferring with null). -/
def deserialiseVisitBlock (blocks : String → Option DesBlock)
    (serializations : Data) (n : SNode) : Except JsErr (Option SNode) :=
  match blocks n.type with
  | none => .ok none
  | some block =>
    match (if truthy (joinIdsVal n) then joinIdsVal n else .arr []) with
    | .arr ids =>
      match computeJoins (objGetD serializations (desPathKey block.path)) ids with
      | .error e => .error e
      | .ok joins => .ok (block.deserialize n joins)
    | _ => .error (.typeError "node.data.get('_joinIds').map is not a function")

mutual
/-- Modelled from the spec: the `walkSlateNode` dispatch (section 4.1)
inlined with `deserialiseToSlateValue`'s visitors; the default branches are
the body of `desDefaultVisitor` below. -/
def desWalk (blocks : String → Option DesBlock) (serializations : Data)
    (n : SNode) : Except JsErr SNode :=
  match n with
  | .mk o t d ns ex =>
    if o = "block" then
      match deserialiseVisitBlock blocks serializations (.mk o t d ns ex) with
      | .error e => .error e
      | .ok (some r) => .ok r
      | .ok none =>
        match ns with
        | none => .ok (.mk o t d none ex)
        | some cs =>
          match desWalkList blocks serializations cs with
          | .error e => .error e
          | .ok cs1 => .ok (.mk o t d (some cs1) ex)
    else
      match ns with
      | none => .ok (.mk o t d none ex)
      | some cs =>
        match desWalkList blocks serializations cs with
        | .error e => .error e
        | .ok cs1 => .ok (.mk o t d (some cs1) ex)
termination_by structural n

def desWalkList (blocks : String → Option DesBlock) (serializations : Data)
    (l : List SNode) : Except JsErr (List SNode) :=
  match l with
  | [] => .ok []
  | c :: cs =>
    match desWalk blocks serializations c with
    | .error e => .error e
    | .ok c1 =>
      match desWalkList blocks serializations cs with
      | .error e => .error e
      | .ok cs1 => .ok (c1 :: cs1)
termination_by structural l
end

/-- `deserialiseToSlateValue`'s `defaultVisitor`: an immutable
`node.set('nodes', node.nodes.map(visitNode))` when a child list is present,
the node itself otherwise. -/
def desDefaultVisitor (blocks : String → Option DesBlock) (serializations : Data)
    (n : SNode) : Except JsErr SNode :=
  match n with
  | .mk o t d none ex => .ok (.mk o t d none ex)
  | .mk o t d (some cs) ex =>
    match desWalkList blocks serializations cs with
    | .error e => .error e
    | .ok cs1 => .ok (.mk o t d (some cs1) ex)

/-- The walker dispatch of the deserializer, restated through
`desDefaultVisitor`. -/
theorem desWalk_eq (blocks : String → Option DesBlock) (serializations : Data)
    (n : SNode) :
    desWalk blocks serializations n =
      if n.object = "block" then
        match deserialiseVisitBlock blocks serializations n with
        | .error e => .error e
        | .ok (some r) => .ok r
        | .ok none => desDefaultVisitor blocks serializations n
      else desDefaultVisitor blocks serializations n := by
  cases n with
  | mk o t d ns ex => cases ns <;> rfl

mutual
/-- `Value.fromJSON({document})` viewed structurally (Slate is an external
library): a JSON object becomes a node with its `object`/`type` strings, its
`data` mapping (defaulted to the empty map, whose `size` is falsy), and its
parsed `nodes` list when one is present; Slate drops properties it does not
know.  Slate's deeper normalization passes are irrelevant to the claims and
are not modelled. -/
def parseNode (v : JsVal) : SNode :=
  match v with
  | .obj kvs =>
    .mk
      (match objGetD kvs "object" with | .str s => s | _ => "")
      (match objGetD kvs "type" with | .str s => s | _ => "")
      (match objGetD kvs "data" with | .obj d => some d | _ => some [])
      (parseNodesField kvs)
      []
  | _ => .mk "" "" (some []) none []
termination_by structural v

/-- The first `nodes` property of the object, parsed when it is an array
(a structural scan agreeing with the first-match property lookup). -/
def parseNodesField (kvs : Data) : Option (List SNode) :=
  match kvs with
  | [] => none
  | (k, v) :: rest =>
    if k = "nodes" then
      match v with
      | .arr xs => some (parseNodeList xs)
      | _ => none
    else parseNodesField rest
termination_by structural kvs

def parseNodeList (l : List JsVal) : List SNode :=
  match l with
  | [] => []
  | v :: vs => parseNode v :: parseNodeList vs
termination_by structural l
end

/-- The first argument of `deserialiseToSlateValue`, the object
`{document, ...serializations}`: the stored document JSON plus the fetched
record lists keyed by block path. -/
structure DesArgs where
  document : JsVal
  serializations : Data

/-- `deserialiseToSlateValue({document, ...serializations}, blocks)`
(src part_002): assert both `document` and `blocks` are supplied (nanoassert
throws on a falsy argument — the spec's `PreconditionError`), parse the
document, walk it, and return the value with the walked document.  A missing
or falsy `blocks` argument is modelled as `none`. -/
def deserialiseToSlateValue (args : DesArgs)
    (blocks : Option (String → Option DesBlock)) : Except JsErr SlateValue :=
  if ¬ truthy args.document then
    .error (.precondition "Must pass document to deserialiseToSlateValue()")
  else
    match blocks with
    | none => .error (.precondition "Must pass blocks to deserialiseToSlateValue()")
    | some blockMap =>
      match desWalk blockMap args.serializations (parseNode args.document) with
      | .error e => .error e
      | .ok doc => .ok ⟨doc⟩

/-! ## Supporting lemmas -/

theorem objGetD_nil (k : String) : objGetD [] k = .undefined := rfl

theorem objGetD_cons (k1 : String) (v1 : JsVal) (tl : Data) (k : String) :
    objGetD ((k1, v1) :: tl) k = if k1 = k then v1 else objGetD tl k := rfl

theorem objGetD_objSet_self (m : Data) (k : String) (v : JsVal) :
    objGetD (objSet m k v) k = v := by
  induction m with
  | nil => simp [objSet, objGetD]
  | cons hd tl ih =>
    rcases hd with ⟨k1, v1⟩
    by_cases h1 : k1 = k <;> simp [objSet, objGetD, h1, ih]

theorem objGetD_objSet_ne (m : Data) (k k2 : String) (v : JsVal) (h : k2 ≠ k) :
    objGetD (objSet m k v) k2 = objGetD m k2 := by
  induction m with
  | nil => simp [objSet, objGetD, Ne.symm h]
  | cons hd tl ih =>
    rcases hd with ⟨k1, v1⟩
    by_cases h1 : k1 = k
    · subst h1
      simp [objSet, objGetD, Ne.symm h]
    · by_cases h2 : k1 = k2 <;> simp [objSet, objGetD, h1, h2, h, ih]

/-! ## Claim C3

The spec says a block whose handler returns no `serializedNode` (with no
mutations) is dropped from the output tree.  The code instead returns `null`
from `visitBlock`, which by the walker contract falls through to
`defaultVisitor`: the block stays in the output as its structural JSON
projection, children recursed. -/

/-- A handler for type `foo` that returns neither a node nor mutations. -/
def c3Block : SerBlock :=
  ⟨"foo", none, fun _ _ => ⟨none, none⟩⟩

def c3Blocks : String → Option SerBlock :=
  fun s => if s = "foo" then some c3Block else none

/-- A `foo` block with data and a text child, inside a document root. -/
def c3Inner : SNode :=
  .mk "block" "foo" (some [("a", .num 1)]) (some [.mk "text" "" none none []]) []

def c3Doc : SNode := .mk "document" "" none (some [c3Inner]) []

/-- Claim C3, counterexample: serializing the document leaves the `foo`
block (and its subtree) in the output — the output's child list is not the
omitted one the claim predicts. -/
theorem c3_counterexample :
    serialiseSlateValue ⟨c3Doc⟩ c3Blocks =
      .ok ⟨.mk "document" "" none (some [c3Inner]) [], []⟩ ∧
    some [c3Inner] ≠ (some ([] : List SNode)) := by
  constructor
  · rfl
  · simp

/-- Claim C3 as amended: a block node whose handler's serialize returns no
node and an empty or absent mutations map is not omitted; the walk falls
through to `serDefaultVisitor` (the structural JSON projection with the
children recursed). -/
theorem c3_theorem (blocks : String → Option SerBlock) (value : SlateValue)
    (n : SNode) (muts : Data) (blk : SerBlock)
    (hb : n.object = "block")
    (hh : blocks n.type = some blk)
    (hnode : (blk.serialize value n).node = none)
    (hm : (blk.serialize value n).mutations.getD [] = []) :
    serWalk blocks value n muts = serDefaultVisitor blocks value n muts := by
  rw [serWalk_eq, if_pos hb]
  have hv : serialiseVisitBlock blocks value n muts = .ok (none, muts) := by
    rcases hmut : (blk.serialize value n).mutations with _ | l
    · simp only [serialiseVisitBlock, hh, hmut, hnode]
    · rw [hmut] at hm
      simp only [Option.getD_some] at hm
      subst hm
      simp only [serialiseVisitBlock, hh, hmut, hnode, List.isEmpty_nil, if_true]
  rw [hv]

/-- Claim C3, witness for the amended theorem at the concrete input. -/
theorem c3_witness :
    serWalk c3Blocks ⟨c3Doc⟩ c3Inner [] = serDefaultVisitor c3Blocks ⟨c3Doc⟩ c3Inner [] :=
  c3_theorem c3Blocks ⟨c3Doc⟩ c3Inner [] c3Block rfl rfl rfl rfl

/-! ## Claim C6

Serializer error conditions, at the `visitBlock` level. -/

/-- Claim C6 (confirmed): when a matching handler returns a truthy,
non-empty mutations map, the serializer throws the spec's
`ConfigurationError` for a missing serialized node, and (node present) for a
falsy `path`; with an empty or absent mutations map it returns normally, so
neither check fires. -/
theorem c6_theorem (blocks : String → Option SerBlock) (value : SlateValue)
    (n : SNode) (muts : Data) (blk : SerBlock)
    (hh : blocks n.type = some blk) :
    (∀ l, (blk.serialize value n).mutations = some l → l ≠ [] →
      ((blk.serialize value n).node = none →
        serialiseVisitBlock blocks value n muts =
          .error (.configuration "Must return a serialized 'node' when returning 'mutations'.")) ∧
      (∀ sn, (blk.serialize value n).node = some sn → pathFalsy blk.path = true →
        serialiseVisitBlock blocks value n muts =
          .error (.configuration
            ("No mutation path set for block view type '" ++ blk.type ++ "'.")))) ∧
    ((blk.serialize value n).mutations.getD [] = [] →
      serialiseVisitBlock blocks value n muts = .ok ((blk.serialize value n).node, muts)) := by
  constructor
  · intro l hl hne
    constructor
    · intro hnode
      simp [serialiseVisitBlock, hh, hl, List.isEmpty_iff, hne, hnode]
    · intro sn hnode hpath
      simp [serialiseVisitBlock, hh, hl, List.isEmpty_iff, hne, hnode, hpath]
  · intro hm
    rcases hmut : (blk.serialize value n).mutations with _ | l
    · simp only [serialiseVisitBlock, hh, hmut]
    · rw [hmut] at hm
      simp only [Option.getD_some] at hm
      subst hm
      simp only [serialiseVisitBlock, hh, hmut, List.isEmpty_nil, if_true]

/-- A handler whose serialize yields mutations but no node. -/
def c6BlockNoNode : SerBlock :=
  ⟨"bar", some "bars", fun _ _ => ⟨some [("create", .obj [])], none⟩⟩

def c6Blocks : String → Option SerBlock :=
  fun s => if s = "bar" then some c6BlockNoNode else none

def c6Node : SNode := .mk "block" "bar" none none []

/-- Claim C6, witness: the missing-node configuration error fires at a
concrete input. -/
theorem c6_witness :
    serialiseVisitBlock c6Blocks ⟨c6Node⟩ c6Node [] =
      .error (.configuration "Must return a serialized 'node' when returning 'mutations'.") :=
  ((c6_theorem c6Blocks ⟨c6Node⟩ c6Node [] c6BlockNoNode rfl).1
    [("create", .obj [])] rfl (by simp)).1 rfl

/-! ## Claim C5

Resolver error conditions, at the `visitBlock` level. -/

theorem resolveJoinIds_ok (resolved : Data) (ps : List JsVal)
    (h : ∀ p ∈ ps, truthy (getByPathVal resolved p) = true) :
    resolveJoinIds resolved ps = .ok (ps.map (getByPathVal resolved)) := by
  induction ps with
  | nil => rfl
  | cons p rest ih =>
    simp only [resolveJoinIds]
    rw [if_pos (h p (by simp))]
    rw [ih (fun q hq => h q (by simp [hq]))]
    simp

theorem resolveJoinIds_err (resolved : Data) (ps : List JsVal)
    (h : ∃ p ∈ ps, truthy (getByPathVal resolved p) = false) :
    ∃ msg, resolveJoinIds resolved ps = .error (.configuration msg) := by
  induction ps with
  | nil => simp at h
  | cons p rest ih =>
    by_cases ht : truthy (getByPathVal resolved p) = true
    · have hrest : ∃ q ∈ rest, truthy (getByPathVal resolved q) = false := by
        rcases h with ⟨q, hq, hfq⟩
        rcases List.mem_cons.mp hq with hq1 | hq2
        · subst hq1; rw [ht] at hfq; cases hfq
        · exact ⟨q, hq2, hfq⟩
      rcases ih hrest with ⟨msg, hmsg⟩
      refine ⟨msg, ?_⟩
      simp only [resolveJoinIds]
      rw [if_pos ht, hmsg]
    · refine ⟨"Slate document refers to unknown mutation '" ++ pathText p ++ "'.", ?_⟩
      simp only [resolveJoinIds]
      rw [if_neg ht]

/-- The behaviour of the resolver's `visitBlock` on a node carrying
`data._mutationPaths`: handler missing, some path falsy, or success. -/
theorem resolveVisitBlock_spec (blocks : List ResBlock) (resolved : Data) (n : SNode)
    (d : Data) (ps : List JsVal)
    (hd : n.data = some d) (hp : objGetD d "_mutationPaths" = .arr ps) :
    (blocks.find? (fun b => b.type == n.type) = none →
      resolveVisitBlock blocks resolved n =
        .error (.configuration
          ("Received mutation for " ++ n.type ++ ", but no block types can handle it."))) ∧
    (∀ blk, blocks.find? (fun b => b.type == n.type) = some blk →
      ((∃ p ∈ ps, truthy (getByPathVal resolved p) = false) →
        ∃ msg, resolveVisitBlock blocks resolved n = .error (.configuration msg)) ∧
      ((∀ p ∈ ps, truthy (getByPathVal resolved p) = true) →
        resolveVisitBlock blocks resolved n =
          .ok (.mk n.object n.type
            (some [("_joinIds", .arr (ps.map (getByPathVal resolved)))])
            n.nodes n.extra))) := by
  have hcarry : carriesMutationPaths n = true := by
    simp [carriesMutationPaths, hd, hp, truthy]
  constructor
  · intro hfind
    simp [resolveVisitBlock, hcarry, hfind]
  · intro blk hfind
    constructor
    · intro hsome
      rcases resolveJoinIds_err resolved ps hsome with ⟨msg, hmsg⟩
      refine ⟨msg, ?_⟩
      simp [resolveVisitBlock, hcarry, hfind, hd, hp, hmsg]
    · intro hall
      simp [resolveVisitBlock, hcarry, hfind, hd, hp, resolveJoinIds_ok resolved ps hall]

/-- Claim C5 (confirmed): on a node carrying `data._mutationPaths`, the
resolver throws the spec's `ConfigurationError` when no registered handler
matches the node's `type`, throws a `ConfigurationError` when any mutation
path looks up to a falsy value in the combined results, and succeeds
without an error when a handler matches and every path resolves truthily. -/
theorem c5_theorem (blocks : List ResBlock) (resolved : Data) (n : SNode)
    (d : Data) (ps : List JsVal)
    (hd : n.data = some d) (hp : objGetD d "_mutationPaths" = .arr ps) :
    (blocks.find? (fun b => b.type == n.type) = none →
      resolveVisitBlock blocks resolved n =
        .error (.configuration
          ("Received mutation for " ++ n.type ++ ", but no block types can handle it."))) ∧
    (∀ blk, blocks.find? (fun b => b.type == n.type) = some blk →
      ((∃ p ∈ ps, truthy (getByPathVal resolved p) = false) →
        ∃ msg, resolveVisitBlock blocks resolved n = .error (.configuration msg)) ∧
      ((∀ p ∈ ps, truthy (getByPathVal resolved p) = true) →
        resolveVisitBlock blocks resolved n =
          .ok (.mk n.object n.type
            (some [("_joinIds", .arr (ps.map (getByPathVal resolved)))])
            n.nodes n.extra))) :=
  resolveVisitBlock_spec blocks resolved n d ps hd hp

/-- A resolver handler for type `t` whose executed-mutation results hold one
created id under path `P`. -/
def c5Block : ResBlock :=
  ⟨"t", fun _ => [("P", .obj [("create", .arr [.str "id1"])])]⟩

def c5Node : SNode :=
  .mk "block" "t" (some [("_mutationPaths", .arr [.str "P.create[0]"])]) none []

/-- Claim C5, witness: the success branch of the theorem at a concrete
carrying node whose single path resolves. -/
theorem c5_witness :
    resolveVisitBlock [c5Block] (resolvedMutationsOf [c5Block] .null) c5Node =
      .ok (.mk "block" "t"
        (some [("_joinIds", .arr [.str "id1"])]) none []) := by
  have h := (c5_theorem [c5Block] (resolvedMutationsOf [c5Block] .null) c5Node
    [("_mutationPaths", .arr [.str "P.create[0]"])] [.str "P.create[0]"] rfl rfl).2
    c5Block rfl
  exact h.2 (by decide)

/-! ## Claim C7

The resolve frame property.  The first half (a successfully resolving node
keeps every field but `data`, which becomes exactly `{_joinIds}`) holds.
The second half fails: a block-kind node NOT carrying `_mutationPaths` is
returned by `visitBlock` as-is, so the walker does not descend into its
children at all — it does not undergo the default structural recursion the
claim asserts. -/

def c7Inner : SNode :=
  .mk "block" "t" (some [("_mutationPaths", .arr [.str "P.create[0]"])]) none []

/-- A non-carrying block node with a carrying block child. -/
def c7Outer : SNode := .mk "block" "outer" none (some [c7Inner]) []

def c7Resolved : Data := [("P", .obj [("create", .arr [.str "id1"])])]

def c7InnerResolved : SNode :=
  .mk "block" "t" (some [("_joinIds", .arr [.str "id1"])]) none []

/-- Claim C7, counterexample: the code passes the non-carrying block through
untouched (children unvisited), while the default structural recursion the
claim asserts would have resolved the carrying child; the two outcomes
differ. -/
theorem c7_counterexample :
    resWalk [c5Block] c7Resolved c7Outer = .ok c7Outer ∧
    resDefaultVisitor [c5Block] c7Resolved c7Outer =
      .ok (.mk "block" "outer" none (some [c7InnerResolved]) []) ∧
    c7Outer ≠ .mk "block" "outer" none (some [c7InnerResolved]) [] := by
  refine ⟨rfl, rfl, ?_⟩
  simp [c7Outer, c7Inner, c7InnerResolved]

/-- Claim C7 as amended: (a) a carrying node that resolves successfully is
replaced by a node whose `data` is exactly `{_joinIds: resolved ids}` with
`object`, `type`, `nodes` and all remaining fields unchanged, its children
unvisited; (b) a block-kind node not carrying `_mutationPaths` is returned
as-is, its children NOT recursed into; (c) only non-block nodes undergo the
default structural recursion into children. -/
theorem c7_theorem (blocks : List ResBlock) (resolved : Data) (n : SNode) :
    (∀ d ps blk, n.object = "block" → n.data = some d →
      objGetD d "_mutationPaths" = .arr ps →
      blocks.find? (fun b => b.type == n.type) = some blk →
      (∀ p ∈ ps, truthy (getByPathVal resolved p) = true) →
      resWalk blocks resolved n =
        .ok (.mk n.object n.type
          (some [("_joinIds", .arr (ps.map (getByPathVal resolved)))])
          n.nodes n.extra)) ∧
    (n.object = "block" → carriesMutationPaths n = false →
      resWalk blocks resolved n = .ok n) ∧
    (n.object ≠ "block" →
      resWalk blocks resolved n = resDefaultVisitor blocks resolved n) := by
  refine ⟨?_, ?_, ?_⟩
  · intro d ps blk hb hd hp hfind hall
    rw [resWalk_eq, if_pos hb]
    exact ((resolveVisitBlock_spec blocks resolved n d ps hd hp).2 blk hfind).2 hall
  · intro hb hnc
    rw [resWalk_eq, if_pos hb]
    simp [resolveVisitBlock, hnc]
  · intro hb
    rw [resWalk_eq, if_neg hb]

/-- Claim C7, witness: part (b) of the amended theorem at the concrete
non-carrying outer block, and part (a) at the carrying inner node. -/
theorem c7_witness :
    resWalk [c5Block] c7Resolved c7Outer = .ok c7Outer ∧
    resWalk [c5Block] c7Resolved c7Inner = .ok c7InnerResolved := by
  constructor
  · exact (c7_theorem [c5Block] c7Resolved c7Outer).2.1 rfl (by decide)
  · exact (c7_theorem [c5Block] c7Resolved c7Inner).1
      [("_mutationPaths", .arr [.str "P.create[0]"])] [.str "P.create[0]"] c5Block
      rfl rfl rfl rfl (by decide)

/-! ## Claim C2

The walk of `processSerialised` mutates its input: `defaultVisitor` assigns
`node.nodes` in place and returns the same object, so a non-block input root
ends up holding the resolved tree.  The serialize and deserialize walks
build fresh output structures (Slate values are immutable); the resolve walk
operates on the plain parsed JSON object and does not. -/

def c2Doc : SNode := .mk "document" "" none (some [c7Inner]) []

def c2DocResolved : SNode := .mk "document" "" none (some [c7InnerResolved]) []

/-- Claim C2, counterexample: after a successful resolve of this document
the caller's input object holds the resolved tree, which differs from the
original input — the resolve walk mutated its input. -/
theorem c2_counterexample :
    processSerialisedInputAfter c2Doc [c5Block] .null = some c2DocResolved ∧
    c2DocResolved ≠ c2Doc := by
  refine ⟨rfl, ?_⟩
  simp [c2DocResolved, c2Doc, c7InnerResolved, c7Inner]

/-- Claim C2 as amended: the resolve walk, unlike the other two, mutates
its input: after a successful `processSerialised` call on a non-block root
the caller's document object holds the returned tree (it is the returned
tree), and at the concrete input above that tree differs from the
original. -/
theorem c2_theorem :
    (∀ (document : SNode) (blocks : List ResBlock) (args : JsVal) (walked : SNode),
      document.object ≠ "block" →
      processSerialised document blocks args = .ok walked →
      processSerialisedInputAfter document blocks args = some walked) ∧
    processSerialisedInputAfter c2Doc [c5Block] .null ≠ some c2Doc := by
  constructor
  · intro doc blocks args walked hb hok
    simp [processSerialisedInputAfter, hok, hb]
  · have h : processSerialisedInputAfter c2Doc [c5Block] .null = some c2DocResolved := rfl
    rw [h]
    simp [c2DocResolved, c2Doc, c7InnerResolved, c7Inner]

/-- Claim C2, witness: the aliasing statement of the amended theorem at the
concrete input. -/
theorem c2_witness :
    processSerialisedInputAfter c2Doc [c5Block] .null = some c2DocResolved :=
  c2_theorem.1 c2Doc [c5Block] .null c2DocResolved (by simp [c2Doc, SNode.object]) rfl

/-! ## Claims C8 and C10: deserializer join resolution -/

/-- The id a record contributes to the `find` predicate, when destructuring
it cannot throw. -/
def recordIdP : JsVal → JsVal
  | .obj kvs => objGetD kvs "id"
  | _ => .undefined

theorem recordId_eq_of_not_nullish (r : JsVal) (h : r ≠ .null ∧ r ≠ .undefined) :
    recordId r = .ok (recordIdP r) := by
  cases r <;> simp_all [recordId, recordIdP]

theorem findRecord_eq (recs : List JsVal) (id : JsVal)
    (h : ∀ r ∈ recs, recordId r = .ok (recordIdP r)) :
    findRecord recs id =
      .ok ((recs.find? (fun r => jsStrictEq id (recordIdP r))).getD .undefined) := by
  induction recs with
  | nil => rfl
  | cons r rs ih =>
    have hr := h r (by simp)
    simp only [findRecord, hr, List.find?_cons]
    by_cases hp : jsStrictEq id (recordIdP r) = true
    · simp [hp]
    · have hp2 : jsStrictEq id (recordIdP r) = false := by
        cases hx : jsStrictEq id (recordIdP r)
        · rfl
        · exact absurd hx hp
      rw [hp2]
      simp only [Bool.false_eq_true, if_false]
      exact ih (fun q hq => h q (by simp [hq]))

theorem computeJoins_eq (recs : List JsVal) (ids : List JsVal)
    (h : ∀ r ∈ recs, recordId r = .ok (recordIdP r)) :
    computeJoins (.arr recs) ids =
      .ok (ids.map (fun id =>
        (recs.find? (fun r => jsStrictEq id (recordIdP r))).getD .undefined)) := by
  induction ids with
  | nil => rfl
  | cons id rest ih =>
    simp only [computeJoins, findRecord_eq recs id h, ih, List.map_cons]

/-- Claim C8 (confirmed): for a block node with a registered handler whose
path maps to a fetched record list, the handler's `deserialize` is invoked
with a `joins` array parallel to the node's `_joinIds` (`ids` is exactly the
code's extraction, and is empty when `data` is absent): same length, and at
every index holding the first record whose `id` strictly equals the join id
whenever one exists; a non-falsy return replaces the node with no further
recursion, a falsy return falls through to the default structural
recursion. -/
theorem c8_theorem (blocks : String → Option DesBlock) (sers : Data)
    (n : SNode) (blk : DesBlock) (ids recs : List JsVal)
    (hb : n.object = "block")
    (hh : blocks n.type = some blk)
    (hrecs : objGetD sers (desPathKey blk.path) = .arr recs)
    (hgood : ∀ r ∈ recs, recordId r = .ok (recordIdP r))
    (hids : (if truthy (joinIdsVal n) then joinIdsVal n else .arr []) = .arr ids) :
    (n.data = none → ids = []) ∧
    (ids.map (fun id =>
        (recs.find? (fun r => jsStrictEq id (recordIdP r))).getD .undefined)).length
      = ids.length ∧
    (∀ i, i < ids.length →
      (∃ r ∈ recs, jsStrictEq (ids.getD i .undefined) (recordIdP r) = true) →
      ((ids.map (fun id =>
          (recs.find? (fun r => jsStrictEq id (recordIdP r))).getD .undefined)).getD i .undefined
            ∈ recs ∧
        jsStrictEq (ids.getD i .undefined)
          (recordIdP ((ids.map (fun id =>
            (recs.find? (fun r => jsStrictEq id (recordIdP r))).getD .undefined)).getD i .undefined))
          = true)) ∧
    desWalk blocks sers n =
      (match blk.deserialize n (ids.map (fun id =>
          (recs.find? (fun r => jsStrictEq id (recordIdP r))).getD .undefined)) with
        | some nn => .ok nn
        | none => desDefaultVisitor blocks sers n) := by
  refine ⟨?_, by simp, ?_, ?_⟩
  · intro hdn
    rw [joinIdsVal] at hids
    rw [hdn] at hids
    simp only [truthy, Bool.false_eq_true, if_false] at hids
    exact (JsVal.arr.injEq _ _ ▸ hids).symm
  · intro i hi hex
    have hgd : ids.getD i .undefined = ids[i] := by
      rw [List.getD_eq_getElem?_getD, List.getElem?_eq_getElem hi]
      rfl
    have hmap : (ids.map (fun id =>
        (recs.find? (fun r => jsStrictEq id (recordIdP r))).getD .undefined)).getD i .undefined
        = (recs.find? (fun r => jsStrictEq ids[i] (recordIdP r))).getD .undefined := by
      rw [List.getD_eq_getElem?_getD, List.getElem?_map, List.getElem?_eq_getElem hi]
      rfl
    rw [hgd] at hex
    have hfind : (recs.find? (fun r => jsStrictEq ids[i] (recordIdP r))).isSome := by
      rw [List.find?_isSome]
      simpa using hex
    rcases Option.isSome_iff_exists.mp hfind with ⟨r0, hr0⟩
    have hmem := List.mem_of_find?_eq_some hr0
    have hpred := List.find?_some hr0
    rw [hgd, hmap, hr0]
    exact ⟨by simpa using hmem, by simpa using hpred⟩
  · rw [desWalk_eq, if_pos hb]
    have hv : deserialiseVisitBlock blocks sers n =
        .ok (blk.deserialize n (ids.map (fun id =>
          (recs.find? (fun r => jsStrictEq id (recordIdP r))).getD .undefined))) := by
      simp only [deserialiseVisitBlock, hh, hids, hrecs, computeJoins_eq recs ids hgood]
    rw [hv]
    rcases blk.deserialize n (ids.map (fun id =>
      (recs.find? (fun r => jsStrictEq id (recordIdP r))).getD .undefined)) with _ | nn <;> rfl

/-- A deserializer handler for type `t` with path `P` that rebuilds a node
from its single join. -/
def c8Block : DesBlock :=
  ⟨some "P", fun n joins =>
    match joins with
    | [.obj r] => some (.mk "block" "t" (some [("got", objGetD r "id")]) n.nodes [])
    | _ => none⟩

def c8Blocks : String → Option DesBlock :=
  fun s => if s = "t" then some c8Block else none

def c8Node : SNode := .mk "block" "t" (some [("_joinIds", .arr [.str "id1"])]) none []

def c8Sers : Data := [("P", .arr [.obj [("id", .str "id1"), ("x", .num 7)]])]

/-- Claim C8, witness: the dispatch equation of the theorem at a concrete
block node whose single join id matches a fetched record. -/
theorem c8_witness :
    desWalk c8Blocks c8Sers c8Node =
      (match c8Block.deserialize c8Node ([.str "id1"].map (fun id =>
          (([.obj [("id", .str "id1"), ("x", .num 7)]].find?
            (fun r => jsStrictEq id (recordIdP r))).getD .undefined))) with
        | some nn => .ok nn
        | none => desDefaultVisitor c8Blocks c8Sers c8Node) :=
  (c8_theorem c8Blocks c8Sers c8Node c8Block [.str "id1"]
    [.obj [("id", .str "id1"), ("x", .num 7)]]
    rfl rfl rfl (by intro r hr; rw [List.mem_singleton] at hr; subst hr; rfl) rfl).2.2.2

/-- Claim C10 (confirmed, implicit): a join id with no matching record
raises no error at the deserializer layer — the walk still reduces to the
handler dispatch — and the joins array simply holds `undefined` at that
position. -/
theorem c10_theorem (blocks : String → Option DesBlock) (sers : Data)
    (n : SNode) (blk : DesBlock) (ids recs : List JsVal) (j : Nat)
    (hb : n.object = "block")
    (hh : blocks n.type = some blk)
    (hrecs : objGetD sers (desPathKey blk.path) = .arr recs)
    (hgood : ∀ r ∈ recs, recordId r = .ok (recordIdP r))
    (hids : (if truthy (joinIdsVal n) then joinIdsVal n else .arr []) = .arr ids)
    (hj : j < ids.length)
    (hnm : ∀ r ∈ recs, jsStrictEq (ids.getD j .undefined) (recordIdP r) = false) :
    desWalk blocks sers n =
      (match blk.deserialize n (ids.map (fun id =>
          (recs.find? (fun r => jsStrictEq id (recordIdP r))).getD .undefined)) with
        | some nn => .ok nn
        | none => desDefaultVisitor blocks sers n) ∧
    (ids.map (fun id =>
        (recs.find? (fun r => jsStrictEq id (recordIdP r))).getD .undefined)).getD j .undefined
      = .undefined := by
  constructor
  · rw [desWalk_eq, if_pos hb]
    have hv : deserialiseVisitBlock blocks sers n =
        .ok (blk.deserialize n (ids.map (fun id =>
          (recs.find? (fun r => jsStrictEq id (recordIdP r))).getD .undefined))) := by
      simp only [deserialiseVisitBlock, hh, hids, hrecs, computeJoins_eq recs ids hgood]
    rw [hv]
    rcases blk.deserialize n (ids.map (fun id =>
      (recs.find? (fun r => jsStrictEq id (recordIdP r))).getD .undefined)) with _ | nn <;> rfl
  · have hgd : ids.getD j .undefined = ids[j] := by
      rw [List.getD_eq_getElem?_getD, List.getElem?_eq_getElem hj]
      rfl
    rw [hgd] at hnm
    have hnone : recs.find? (fun r => jsStrictEq ids[j] (recordIdP r)) = none :=
      List.find?_eq_none.mpr (fun r hr => by simp [hnm r hr])
    have hmap : (ids.map (fun id =>
        (recs.find? (fun r => jsStrictEq id (recordIdP r))).getD .undefined)).getD j .undefined
        = (recs.find? (fun r => jsStrictEq ids[j] (recordIdP r))).getD .undefined := by
      rw [List.getD_eq_getElem?_getD, List.getElem?_map, List.getElem?_eq_getElem hj]
      rfl
    rw [hmap, hnone]
    rfl

def c10Node : SNode := .mk "block" "t" (some [("_joinIds", .arr [.str "missing"])]) none []

/-- Claim C10, witness: the undefined-entry statement of the theorem at a
concrete node whose join id matches no fetched record. -/
theorem c10_witness :
    ([.str "missing"].map (fun id =>
      (([.obj [("id", .str "id1"), ("x", .num 7)]].find?
        (fun r => jsStrictEq id (recordIdP r))).getD .undefined))).getD 0 .undefined = .undefined :=
  (c10_theorem c8Blocks c8Sers c10Node c8Block [.str "missing"]
    [.obj [("id", .str "id1"), ("x", .num 7)]] 0
    rfl rfl rfl (by intro r hr; rw [List.mem_singleton] at hr; subst hr; rfl) rfl
    (by decide) (by decide)).2

/-! ## Claim C9: deserializer preconditions -/

theorem recordId_not_precondition (r : JsVal) (msg : String) :
    recordId r ≠ .error (.precondition msg) := by
  cases r <;> simp [recordId]

theorem findRecord_not_precondition (recs : List JsVal) (id : JsVal) (msg : String) :
    findRecord recs id ≠ .error (.precondition msg) := by
  induction recs with
  | nil => simp [findRecord]
  | cons r rs ih =>
    simp only [findRecord]
    rcases hr : recordId r with e | i
    · intro hc
      rcases hc
      exact recordId_not_precondition r msg hr
    · by_cases hp : jsStrictEq id i = true
      · simp [hp]
      · simpa [hp] using ih

theorem computeJoins_not_precondition (recsVal : JsVal) (ids : List JsVal) (msg : String) :
    computeJoins recsVal ids ≠ .error (.precondition msg) := by
  induction ids with
  | nil => simp [computeJoins]
  | cons id rest ih =>
    simp only [computeJoins]
    rcases recsVal with _ | _ | b | i | s | xs | kvs <;>
      try simp
    rcases hf : findRecord xs id with e | j
    · intro hc
      rcases hc
      exact findRecord_not_precondition xs id msg hf
    · rcases hrest : computeJoins (.arr xs) rest with e | js
      · intro hc
        rcases hc
        exact absurd hrest ih
      · simp

theorem deserialiseVisitBlock_not_precondition (blocks : String → Option DesBlock)
    (sers : Data) (n : SNode) (msg : String) :
    deserialiseVisitBlock blocks sers n ≠ .error (.precondition msg) := by
  simp only [deserialiseVisitBlock]
  rcases blocks n.type with _ | blk
  · simp
  · rcases hids : (if truthy (joinIdsVal n) then joinIdsVal n else .arr []) with
      _ | _ | b | i | s | xs | kvs <;> try simp
    rcases hj : computeJoins (objGetD sers (desPathKey blk.path)) xs with e | js
    · intro hc
      rcases hc
      exact computeJoins_not_precondition _ xs msg hj
    · simp

theorem desWalk_not_precondition (blocks : String → Option DesBlock) (sers : Data) :
    ∀ n : SNode, ∀ msg, desWalk blocks sers n ≠ .error (.precondition msg) := by
  intro n
  refine desWalk.induct blocks sers
    (fun m => ∀ msg, desWalk blocks sers m ≠ .error (.precondition msg))
    (fun l => ∀ msg, desWalkList blocks sers l ≠ .error (.precondition msg))
    ?_ ?_ ?_ ?_ ?_ ?_ ?_ ?_ ?_ ?_ ?_ ?_ n
  · intro t d ns ex e hv msg hc
    rw [desWalk_eq] at hc
    simp only [SNode.object, reduceIte] at hc
    rw [hv] at hc
    injection hc with he
    subst he
    exact deserialiseVisitBlock_not_precondition blocks sers _ msg hv
  · intro t d ns ex r hv msg hc
    rw [desWalk_eq] at hc
    simp only [SNode.object, reduceIte] at hc
    rw [hv] at hc
    exact Except.noConfusion hc
  · intro t d ex hv msg hc
    rw [desWalk_eq] at hc
    simp only [SNode.object, reduceIte] at hc
    rw [hv] at hc
    simp only [desDefaultVisitor] at hc
    exact Except.noConfusion hc
  · intro t d ex cs e hlist hv ih2 msg hc
    rw [desWalk_eq] at hc
    simp only [SNode.object, reduceIte] at hc
    rw [hv] at hc
    simp only [desDefaultVisitor, hlist] at hc
    injection hc with he
    subst he
    exact ih2 msg hlist
  · intro t d ex cs cs1 hlist hv ih2 msg hc
    rw [desWalk_eq] at hc
    simp only [SNode.object, reduceIte] at hc
    rw [hv] at hc
    simp only [desDefaultVisitor, hlist] at hc
    exact Except.noConfusion hc
  · intro o t d ex ho msg hc
    rw [desWalk_eq] at hc
    simp only [SNode.object, ho, if_false] at hc
    simp only [desDefaultVisitor] at hc
    exact Except.noConfusion hc
  · intro o t d ex ho cs e hlist ih2 msg hc
    rw [desWalk_eq] at hc
    simp only [SNode.object, ho, if_false] at hc
    simp only [desDefaultVisitor, hlist] at hc
    injection hc with he
    subst he
    exact ih2 msg hlist
  · intro o t d ex ho cs cs1 hlist ih2 msg hc
    rw [desWalk_eq] at hc
    simp only [SNode.object, ho, if_false] at hc
    simp only [desDefaultVisitor, hlist] at hc
    exact Except.noConfusion hc
  · intro msg hc
    simp only [desWalkList] at hc
    exact Except.noConfusion hc
  · intro c cs e hw ih1 msg hc
    simp only [desWalkList, hw] at hc
    injection hc with he
    subst he
    exact ih1 msg hw
  · intro c cs sn1 hw e hlist ih1 ih2 msg hc
    simp only [desWalkList, hw, hlist] at hc
    injection hc with he
    subst he
    exact ih2 msg hlist
  · intro c cs sn1 hw cs1 hlist ih1 ih2 msg hc
    simp only [desWalkList, hw, hlist] at hc
    exact Except.noConfusion hc

/-- Claim C9 (confirmed): a missing/falsy `document` argument, or a
missing/falsy block-handler map, makes `deserialiseToSlateValue` throw the
corresponding assertion (`PreconditionError`) before any processing; with
both supplied no precondition assertion fires (whatever else the walk
does). -/
theorem c9_theorem (args : DesArgs) (blocks : Option (String → Option DesBlock)) :
    (truthy args.document = false →
      deserialiseToSlateValue args blocks =
        .error (.precondition "Must pass document to deserialiseToSlateValue()")) ∧
    (truthy args.document = true → blocks = none →
      deserialiseToSlateValue args blocks =
        .error (.precondition "Must pass blocks to deserialiseToSlateValue()")) ∧
    (∀ bm, truthy args.document = true → blocks = some bm →
      ∀ msg, deserialiseToSlateValue args blocks ≠ .error (.precondition msg)) := by
  refine ⟨?_, ?_, ?_⟩
  · intro hf
    simp [deserialiseToSlateValue, hf]
  · intro ht hb
    simp [deserialiseToSlateValue, ht, hb]
  · intro bm ht hb msg
    simp only [deserialiseToSlateValue, ht, Bool.not_true, Bool.false_eq_true, if_false, hb]
    rcases hw : desWalk bm args.serializations (parseNode args.document) with e | doc
    · intro hc
      rcases hc
      exact desWalk_not_precondition bm args.serializations (parseNode args.document) msg hw
    · simp

/-- Claim C9, witness: the missing-document assertion at a concrete call. -/
theorem c9_witness :
    deserialiseToSlateValue ⟨.undefined, []⟩ none =
      .error (.precondition "Must pass document to deserialiseToSlateValue()") :=
  (c9_theorem ⟨.undefined, []⟩ none).1 rfl

/-! ## Claim C4: batch defaulting

Every batch ever created starts from `{disconnectAll: true}` and that key
is never overwritten, so every path present in the returned batch map has
`disconnectAll === true`.  The claim's second half fails: a handler
returning a non-empty mutations map whose action values are all empty
arrays creates the batch entry although zero mutations are emitted. -/

/-- Invariant of the `allMutations` accumulator: every entry is an object
with `disconnectAll: true`. -/
def GoodBatches (muts : Data) : Prop :=
  ∀ kv ∈ muts, ∃ b, kv.2 = JsVal.obj b ∧ objGetD b "disconnectAll" = .bool true

theorem goodBatches_nil : GoodBatches [] := by
  intro kv hk
  simp at hk

theorem goodBatches_lookup : ∀ (m : Data) (p : String) (b : Data),
    GoodBatches m → objGetD m p = .obj b →
    objGetD b "disconnectAll" = .bool true := by
  intro m
  induction m with
  | nil => intro p b _ h; simp [objGetD] at h
  | cons hd tl ih =>
    intro p b hg h
    rcases hd with ⟨k1, v1⟩
    rw [objGetD_cons] at h
    by_cases h1 : k1 = p
    · rw [if_pos h1] at h
      rcases hg (k1, v1) (List.mem_cons_self _ _) with ⟨b2, hb2, hd2⟩
      have hbb : JsVal.obj b = JsVal.obj b2 := h.symm.trans hb2
      injection hbb with hbb2
      rw [hbb2]
      exact hd2
    · rw [if_neg h1] at h
      exact ih p b (fun kv hk => hg kv (List.mem_cons_of_mem _ hk)) h

theorem goodBatches_objSet (m : Data) (k : String) (bnew : Data)
    (hg : GoodBatches m) (hnew : objGetD bnew "disconnectAll" = .bool true) :
    GoodBatches (objSet m k (.obj bnew)) := by
  induction m with
  | nil =>
    intro kv hk
    simp only [objSet, List.mem_singleton] at hk
    subst hk
    exact ⟨bnew, rfl, hnew⟩
  | cons hd tl ih =>
    rcases hd with ⟨k1, v1⟩
    intro kv hk
    simp only [objSet] at hk
    by_cases h1 : k1 = k
    · rw [if_pos h1] at hk
      rcases List.mem_cons.mp hk with h2 | h2
      · subst h2; exact ⟨bnew, rfl, hnew⟩
      · exact hg kv (List.mem_cons_of_mem _ h2)
    · rw [if_neg h1] at hk
      rcases List.mem_cons.mp hk with h2 | h2
      · subst h2; exact hg (k1, v1) (List.mem_cons_self _ _)
      · exact ih (fun kv2 hk2 => hg kv2 (List.mem_cons_of_mem _ hk2)) kv h2

theorem goodBatches_ensureBatch (m : Data) (path : String) (hg : GoodBatches m) :
    GoodBatches (ensureBatch m path) := by
  unfold ensureBatch
  by_cases h : truthy (objGetD m path) = true
  · rw [if_pos h]; exact hg
  · rw [if_neg h]
    exact goodBatches_objSet m path _ hg rfl

theorem goodBatches_ensureAction (m : Data) (path action : String)
    (hg : GoodBatches m) : GoodBatches (ensureAction m path action) := by
  unfold ensureAction
  rcases hb : objGetD m path with _ | _ | bb | ii | ss | xs | batch <;> try exact hg
  dsimp only []
  by_cases htr : truthy (objGetD batch action) = true
  · rw [if_pos htr]; exact hg
  · rw [if_neg htr]
    have hdall := goodBatches_lookup m path batch hg hb
    have hact : action ≠ "disconnectAll" := by
      intro he
      subst he
      rw [hdall] at htr
      exact htr rfl
    refine goodBatches_objSet m path _ hg ?_
    rw [objGetD_objSet_ne batch action "disconnectAll" _ (fun hh => hact hh.symm)]
    exact hdall

theorem goodBatches_pushMutation (m : Data) (path action : String) (mu : JsVal)
    (m2 : Data) (len : Nat)
    (h : pushMutation m path action mu = .ok (m2, len)) (hg : GoodBatches m) :
    GoodBatches m2 := by
  simp only [pushMutation] at h
  rcases hb : objGetD m path with _ | _ | bb | ii | ss | xs | batch <;>
    rw [hb] at h <;> try exact Except.noConfusion h
  dsimp only [] at h
  rcases ha : objGetD batch action with _ | _ | bb2 | ii2 | ss2 | xs2 | kk2 <;>
    rw [ha] at h <;> try exact Except.noConfusion h
  dsimp only [] at h
  injection h with h2
  injection h2 with h3 _
  subst h3
  have hdall := goodBatches_lookup m path batch hg hb
  have hact : action ≠ "disconnectAll" := by
    intro he
    subst he
    rw [hdall] at ha
    exact JsVal.noConfusion ha
  refine goodBatches_objSet m path _ hg ?_
  rw [objGetD_objSet_ne batch action "disconnectAll" _ (fun hh => hact hh.symm)]
  exact hdall

theorem goodBatches_pushAll : ∀ (ms : List JsVal) (path action : String)
    (m : Data) (ps : List String) (m2 : Data) (ps2 : List String),
    pushAll path action ms m ps = .ok (m2, ps2) → GoodBatches m → GoodBatches m2 := by
  intro ms
  induction ms with
  | nil =>
    intro path action m ps m2 ps2 h hg
    simp only [pushAll] at h
    injection h with h2
    injection h2 with h3 _
    subst h3
    exact hg
  | cons mu rest ih =>
    intro path action m ps m2 ps2 h hg
    simp only [pushAll] at h
    rcases hpm : pushMutation m path action mu with e | pr <;> rw [hpm] at h
    · exact Except.noConfusion h
    · rcases pr with ⟨m1, len⟩
      exact ih path action m1 _ m2 ps2 h
        (goodBatches_pushMutation m path action mu m1 len hpm hg)

theorem goodBatches_processActions : ∀ (acts : Data) (path : String)
    (m : Data) (ps : List String) (m2 : Data) (ps2 : List String),
    processActions path acts m ps = .ok (m2, ps2) → GoodBatches m → GoodBatches m2 := by
  intro acts
  induction acts with
  | nil =>
    intro path m ps m2 ps2 h hg
    simp only [processActions] at h
    injection h with h2
    injection h2 with h3 _
    subst h3
    exact hg
  | cons act rest ih =>
    intro path m ps m2 ps2 h hg
    rcases act with ⟨action, mdata⟩
    simp only [processActions] at h
    rcases hpa : pushAll path action (normalizeArr mdata)
        (ensureAction m path action) ps with e | pr <;> rw [hpa] at h
    · exact Except.noConfusion h
    · rcases pr with ⟨m1, ps1⟩
      exact ih path m1 ps1 m2 ps2 h
        (goodBatches_pushAll (normalizeArr mdata) path action
          (ensureAction m path action) ps m1 ps1 hpa
          (goodBatches_ensureAction m path action hg))

theorem goodBatches_serialiseVisitBlock (blocks : String → Option SerBlock)
    (value : SlateValue) (n : SNode) (m : Data) (r? : Option SNode) (m2 : Data)
    (h : serialiseVisitBlock blocks value n m = .ok (r?, m2)) (hg : GoodBatches m) :
    GoodBatches m2 := by
  simp only [serialiseVisitBlock] at h
  rcases hbt : blocks n.type with _ | blk <;> rw [hbt] at h <;> dsimp only [] at h
  · injection h with h2
    injection h2 with _ h3
    subst h3
    exact hg
  · rcases hmut : (blk.serialize value n).mutations with _ | mkvs <;> rw [hmut] at h <;>
      dsimp only [] at h
    · injection h with h2
      injection h2 with _ h3
      subst h3
      exact hg
    · by_cases he : mkvs.isEmpty = true
      · rw [if_pos he] at h
        injection h with h2
        injection h2 with _ h3
        subst h3
        exact hg
      · rw [if_neg he] at h
        rcases hnode : (blk.serialize value n).node with _ | sn <;> rw [hnode] at h <;>
          dsimp only [] at h
        · exact Except.noConfusion h
        · by_cases hp : pathFalsy blk.path = true
          · rw [if_pos hp] at h
            exact Except.noConfusion h
          · rw [if_neg hp] at h
            rcases hpa : processActions (blk.path.getD "") mkvs
                (ensureBatch m (blk.path.getD "")) [] with e | pr <;> rw [hpa] at h <;>
              dsimp only [] at h
            · exact Except.noConfusion h
            · rcases pr with ⟨m1, nps⟩
              dsimp only [] at h
              rcases ham : attachMutationPaths sn nps with e | sn1 <;> rw [ham] at h <;>
                dsimp only [] at h
              · exact Except.noConfusion h
              · injection h with h2
                injection h2 with _ h3
                subst h3
                exact goodBatches_processActions mkvs (blk.path.getD "")
                  (ensureBatch m (blk.path.getD "")) [] m1 nps hpa
                  (goodBatches_ensureBatch m (blk.path.getD "") hg)

theorem goodBatches_serWalk (blocks : String → Option SerBlock) (value : SlateValue) :
    ∀ (n : SNode) (muts : Data), GoodBatches muts →
      ∀ (r : SNode) (m2 : Data), serWalk blocks value n muts = .ok (r, m2) →
        GoodBatches m2 := by
  intro n muts
  refine serWalk.induct blocks value
    (fun nn mm => GoodBatches mm →
      ∀ r m2, serWalk blocks value nn mm = .ok (r, m2) → GoodBatches m2)
    (fun ll mm => GoodBatches mm →
      ∀ rs m2, serWalkList blocks value ll mm = .ok (rs, m2) → GoodBatches m2)
    ?_ ?_ ?_ ?_ ?_ ?_ ?_ ?_ ?_ ?_ ?_ ?_ n muts
  · intro mm t d ns ex e hv hg r m2 hw
    rw [serWalk_eq] at hw
    simp only [SNode.object, reduceIte] at hw
    rw [hv] at hw
    exact Except.noConfusion hw
  · intro mm t d ns ex r0 mm1 hv hg r m2 hw
    rw [serWalk_eq] at hw
    simp only [SNode.object, reduceIte] at hw
    rw [hv] at hw
    injection hw with hw2
    injection hw2 with _ h3
    subst h3
    exact goodBatches_serialiseVisitBlock blocks value _ mm (some r0) _ hv hg
  · intro mm t d ex mm1 hv hg r m2 hw
    rw [serWalk_eq] at hw
    simp only [SNode.object, reduceIte] at hw
    rw [hv] at hw
    simp only [serDefaultVisitor] at hw
    injection hw with hw2
    injection hw2 with _ h3
    subst h3
    exact goodBatches_serialiseVisitBlock blocks value _ mm none _ hv hg
  · intro mm t d ex mm1 cs e hlist hv ih hg r m2 hw
    rw [serWalk_eq] at hw
    simp only [SNode.object, reduceIte] at hw
    rw [hv] at hw
    simp only [serDefaultVisitor, hlist] at hw
    exact Except.noConfusion hw
  · intro mm t d ex mm1 cs cs1 mm2 hlist hv ih hg r m2 hw
    rw [serWalk_eq] at hw
    simp only [SNode.object, reduceIte] at hw
    rw [hv] at hw
    simp only [serDefaultVisitor, hlist] at hw
    injection hw with hw2
    injection hw2 with _ h3
    subst h3
    exact ih (goodBatches_serialiseVisitBlock blocks value _ mm none mm1 hv hg)
      cs1 _ hlist
  · intro mm o t d ex ho hg r m2 hw
    rw [serWalk_eq] at hw
    simp only [SNode.object, ho, if_false] at hw
    simp only [serDefaultVisitor] at hw
    injection hw with hw2
    injection hw2 with _ h3
    subst h3
    exact hg
  · intro mm o t d ex ho cs e hlist ih hg r m2 hw
    rw [serWalk_eq] at hw
    simp only [SNode.object, ho, if_false] at hw
    simp only [serDefaultVisitor, hlist] at hw
    exact Except.noConfusion hw
  · intro mm o t d ex ho cs cs1 mm2 hlist ih hg r m2 hw
    rw [serWalk_eq] at hw
    simp only [SNode.object, ho, if_false] at hw
    simp only [serDefaultVisitor, hlist] at hw
    injection hw with hw2
    injection hw2 with _ h3
    subst h3
    exact ih hg cs1 _ hlist
  · intro mm hg rs m2 hw
    simp only [serWalkList] at hw
    injection hw with hw2
    injection hw2 with _ h3
    subst h3
    exact hg
  · intro mm c cs e hww ih hg rs m2 hw
    simp only [serWalkList, hww] at hw
    exact Except.noConfusion hw
  · intro mm c cs c1 mm1 hww e hlist ih1 ih2 hg rs m2 hw
    simp only [serWalkList, hww, hlist] at hw
    exact Except.noConfusion hw
  · intro mm c cs c1 mm1 hww cs1 mm2 hlist ih1 ih2 hg rs m2 hw
    simp only [serWalkList, hww, hlist] at hw
    injection hw with hw2
    injection hw2 with _ h3
    subst h3
    exact ih2 (ih1 hg c1 mm1 hww) cs1 _ hlist

/-- Claim C4 as amended: in every successful serialize call, every path
present in the returned batch map carries a batch object with
`disconnectAll === true`.  (The claim's converse — a path with no emitted
mutation never appears — fails; see the counterexample, where a non-empty
mutations map with an empty action array creates the entry with zero
mutations emitted.) -/
theorem c4_theorem (value : SlateValue) (blocks : String → Option SerBlock)
    (res : SerialiseResult) (p : String) (b : Data)
    (hok : serialiseSlateValue value blocks = .ok res)
    (hp : objGetD res.batches p = .obj b) :
    objGetD b "disconnectAll" = .bool true := by
  have hg : GoodBatches res.batches := by
    simp only [serialiseSlateValue] at hok
    rcases hw : serWalk blocks value value.document [] with e | pr <;> rw [hw] at hok
    · exact Except.noConfusion hok
    · rcases pr with ⟨doc, m2⟩
      injection hok with hok2
      have hbat : res.batches = m2 := by rw [← hok2]
      rw [hbat]
      exact goodBatches_serWalk blocks value value.document [] goodBatches_nil doc m2 hw
  exact goodBatches_lookup res.batches p b hg hp

/-- A handler returning a non-empty mutations map whose single action value
is the empty array: zero mutations are emitted, yet the batch entry is
created. -/
def c4Block : SerBlock :=
  ⟨"e", some "P", fun _ _ => ⟨some [("create", .arr [])], some (.mk "block" "e" none none [])⟩⟩

def c4Blocks : String → Option SerBlock :=
  fun s => if s = "e" then some c4Block else none

def c4Doc : SNode := .mk "document" "" none (some [.mk "block" "e" none none []]) []

/-- Claim C4, counterexample: the returned result carries `P` as a key
(batch `{disconnectAll: true, create: []}`) although no mutation was ever
emitted under `P` — the node's `_mutationPaths` is empty and every action
array is empty — contradicting the claim that `P` would then not appear. -/
theorem c4_counterexample :
    serialiseSlateValue ⟨c4Doc⟩ c4Blocks =
      .ok ⟨.mk "document" "" none
          (some [.mk "block" "e" (some [("_mutationPaths", .arr [])]) none []]) [],
        [("P", .obj [("disconnectAll", .bool true), ("create", .arr [])])]⟩ ∧
    objGetD [("P", .obj [("disconnectAll", .bool true), ("create", .arr [])])] "P" ≠ .undefined := by
  refine ⟨rfl, ?_⟩
  simp [objGetD]

/-- Claim C4, witness: the amended theorem applied to the concrete run. -/
theorem c4_witness :
    objGetD [("disconnectAll", .bool true), ("create", .arr [])] "disconnectAll" = .bool true :=
  c4_theorem ⟨c4Doc⟩ c4Blocks
    ⟨.mk "document" "" none
        (some [.mk "block" "e" (some [("_mutationPaths", .arr [])]) none []]) [],
      [("P", .obj [("disconnectAll", .bool true), ("create", .arr [])])]⟩
    "P" [("disconnectAll", .bool true), ("create", .arr [])] rfl rfl

/-! ## Claim C1: positional integrity across serialize and resolve

The serialize half holds for any handler, but resolving is done with
`getByPath` (lodash `get`), which parses the generated path string: when the
handler's `path` itself contains a `.` (or a bracket), the emitted string
`P.create[i]` tokenizes into extra segments, the lookup into
`{P: {create: [r0, r1]}}` comes back undefined, and resolve throws instead
of producing `_joinIds = [r0, r1]`.  Positional integrity therefore only
holds for paths free of lodash's separator characters. -/

/-- A handler whose declared path contains a dot. -/
def c1BadBlock : SerBlock :=
  ⟨"img", some "a.b", fun _ _ =>
    ⟨some [("create", .arr [.num 1, .num 2])], some (.mk "block" "img" none none [])⟩⟩

def c1BadBlocks : String → Option SerBlock :=
  fun s => if s = "img" then some c1BadBlock else none

def c1BadDoc : SNode := .mk "document" "" none (some [.mk "block" "img" none none []]) []

/-- The serialized document: paths `a.b.create[0]`, `a.b.create[1]` in
order, batch `a.b` holding `[m0, m1]`. -/
def c1BadSerialized : SNode :=
  .mk "document" "" none
    (some [.mk "block" "img"
      (some [("_mutationPaths", .arr [.str "a.b.create[0]", .str "a.b.create[1]"])])
      none []]) []

/-- The matching resolver handler: results `{a.b: {create: [r0, r1]}}`. -/
def c1BadRes : ResBlock :=
  ⟨"img", fun _ => [("a.b", .obj [("create", .arr [.str "r0", .str "r1"])])]⟩

/-- Claim C1, counterexample: with handler path `P = "a.b"` the serializer
emits exactly the claimed paths and batch, but resolving the document
against `{P: {create: [r0, r1]}}` throws a configuration error (the lodash
path lookup splits on the dot), so the claimed `_joinIds = [r0, r1]` result
is never produced. -/
theorem c1_counterexample :
    serialiseSlateValue ⟨c1BadDoc⟩ c1BadBlocks =
      .ok ⟨c1BadSerialized,
        [("a.b", .obj [("disconnectAll", .bool true), ("create", .arr [.num 1, .num 2])])]⟩ ∧
    processSerialised c1BadSerialized [c1BadRes] .null =
      .error (.configuration "Slate document refers to unknown mutation 'a.b.create[0]'.") :=
  ⟨rfl, rfl⟩

/-! Support lemmas for the amended positional-integrity statement. -/

theorem string_eq_of_data (x y : String) (h : x.data = y.data) : x = y := by
  cases x; cases y; exact congrArg String.mk h

theorem string_ne_self_append (P s : String) (hs : s ≠ "") : P ≠ P ++ s := by
  intro h
  have hdata := congrArg String.data h
  rw [String.data_append] at hdata
  have hlen := congrArg List.length hdata
  rw [List.length_append] at hlen
  have hz : s.data.length = 0 := by omega
  rcases List.length_eq_zero.mp hz with hnil
  exact hs (string_eq_of_data s "" (by simp [hnil]))

/-- A character list free of lodash's separator characters is consumed into
the current token. -/
theorem tokMain_append_plain : ∀ (cs rest acc : List Char),
    (∀ c ∈ cs, c ≠ '.' ∧ c ≠ '[' ∧ c ≠ ']') →
    tokMain (cs ++ rest) acc = tokMain rest (acc ++ cs) := by
  intro cs
  induction cs with
  | nil => intro rest acc _; simp
  | cons c cs2 ih =>
    intro rest acc h
    rcases h c (by simp) with ⟨h1, h2, h3⟩
    simp only [List.cons_append, tokMain, if_neg h1, if_neg h2, if_neg h3, List.append_eq]
    rw [ih rest (acc ++ [c]) (fun x hx => h x (by simp [hx]))]
    simp

theorem stringToPath_create0 (P : String)
    (hsep : ∀ c ∈ P.data, c ≠ '.' ∧ c ≠ '[' ∧ c ≠ ']') :
    stringToPath (P ++ ".create[0]") = [P, "create", "0"] := by
  unfold stringToPath
  rw [String.data_append]
  have hlit : (".create[0]" : String).data =
    ['.', 'c', 'r', 'e', 'a', 't', 'e', '[', '0', ']'] := rfl
  rw [hlit, tokMain_append_plain P.data _ [] hsep]
  rfl

theorem stringToPath_create1 (P : String)
    (hsep : ∀ c ∈ P.data, c ≠ '.' ∧ c ≠ '[' ∧ c ≠ ']') :
    stringToPath (P ++ ".create[1]") = [P, "create", "1"] := by
  unfold stringToPath
  rw [String.data_append]
  have hlit : (".create[1]" : String).data =
    ['.', 'c', 'r', 'e', 'a', 't', 'e', '[', '1', ']'] := rfl
  rw [hlit, tokMain_append_plain P.data _ [] hsep]
  rfl

theorem getByPath_create0 (P : String) (r0 r1 : JsVal)
    (hsep : ∀ c ∈ P.data, c ≠ '.' ∧ c ≠ '[' ∧ c ≠ ']') :
    getByPath [(P, .obj [("create", .arr [r0, r1])])] (P ++ ".create[0]") = r0 := by
  have hlit : (".create[0]" : String).data =
    ['.', 'c', 'r', 'e', 'a', 't', 'e', '[', '0', ']'] := rfl
  have hdeep : isDeepPath ((P ++ ".create[0]")).data = true := by
    rw [String.data_append, hlit]
    simp [isDeepPath, List.any_append]
  have hne : P ≠ P ++ ".create[0]" := string_ne_self_append P _ (by decide)
  have hkey : objHasKey [(P, JsVal.obj [("create", .arr [r0, r1])])] (P ++ ".create[0]") = false := by
    simp [objHasKey, hne]
  simp only [getByPath, hdeep, hkey, Bool.not_true, Bool.false_eq_true, if_false,
    stringToPath_create0 P hsep]
  have hk : keyGet (.obj [(P, JsVal.obj [("create", .arr [r0, r1])])]) P =
      .obj [("create", .arr [r0, r1])] := by
    simp [keyGet, objGetD]
  simp only [walkTokens, hk]
  rfl

theorem getByPath_create1 (P : String) (r0 r1 : JsVal)
    (hsep : ∀ c ∈ P.data, c ≠ '.' ∧ c ≠ '[' ∧ c ≠ ']') :
    getByPath [(P, .obj [("create", .arr [r0, r1])])] (P ++ ".create[1]") = r1 := by
  have hlit : (".create[1]" : String).data =
    ['.', 'c', 'r', 'e', 'a', 't', 'e', '[', '1', ']'] := rfl
  have hdeep : isDeepPath ((P ++ ".create[1]")).data = true := by
    rw [String.data_append, hlit]
    simp [isDeepPath, List.any_append]
  have hne : P ≠ P ++ ".create[1]" := string_ne_self_append P _ (by decide)
  have hkey : objHasKey [(P, JsVal.obj [("create", .arr [r0, r1])])] (P ++ ".create[1]") = false := by
    simp [objHasKey, hne]
  simp only [getByPath, hdeep, hkey, Bool.not_true, Bool.false_eq_true, if_false,
    stringToPath_create1 P hsep]
  have hk : keyGet (.obj [(P, JsVal.obj [("create", .arr [r0, r1])])]) P =
      .obj [("create", .arr [r0, r1])] := by
    simp [keyGet, objGetD]
  simp only [walkTokens, hk]
  rfl

/-- The serializer's `visitBlock` on a handler that produces mutations
`[m0, m1]` under action `create` with a truthy path `P` and a fresh
serialized node: the batch is `{disconnectAll: true, create: [m0, m1]}` and
the node receives exactly the two paths `P.create[0]`, `P.create[1]`, in
order. -/
theorem c1_visit (blocks : String → Option SerBlock) (V : SlateValue)
    (bnode : SNode) (h : SerBlock) (P st : String) (sd : Option Data)
    (snodes : Option (List SNode)) (sex : Data) (m0 m1 : JsVal)
    (hlook : blocks bnode.type = some h)
    (hpath : h.path = some P) (hP0 : P ≠ "")
    (hser : h.serialize V bnode =
      ⟨some [("create", .arr [m0, m1])], some (.mk "block" st sd snodes sex)⟩)
    (hfresh : truthy (objGetD (sd.getD []) "_mutationPaths") = false) :
    serialiseVisitBlock blocks V bnode [] =
      .ok (some (.mk "block" st
          (some (objSet (sd.getD []) "_mutationPaths"
            (.arr [.str (P ++ ".create[0]"), .str (P ++ ".create[1]")]))) snodes sex),
        [(P, .obj [("disconnectAll", .bool true), ("create", .arr [m0, m1])])]) := by
  have hm : (h.serialize V bnode).mutations = some [("create", .arr [m0, m1])] := by
    rw [hser]
  have hn : (h.serialize V bnode).node = some (.mk "block" st sd snodes sex) := by
    rw [hser]
  have hpf : pathFalsy h.path = false := by
    rw [hpath]
    simp [pathFalsy, hP0]
  have hgd : h.path.getD "" = P := by rw [hpath]; rfl
  have heb : ensureBatch [] P = [(P, .obj [("disconnectAll", .bool true)])] := by
    simp [ensureBatch, objGetD, truthy, objSet]
  have hea : ensureAction [(P, .obj [("disconnectAll", .bool true)])] P "create" =
      [(P, .obj [("disconnectAll", .bool true), ("create", .arr [])])] := by
    simp [ensureAction, objGetD, truthy, objSet]
  have hpush0 : pushMutation [(P, .obj [("disconnectAll", .bool true), ("create", .arr [])])]
      P "create" m0 =
      .ok ([(P, .obj [("disconnectAll", .bool true), ("create", .arr [m0])])], 1) := by
    simp [pushMutation, objGetD, objSet]
  have hpush1 : pushMutation [(P, .obj [("disconnectAll", .bool true), ("create", .arr [m0])])]
      P "create" m1 =
      .ok ([(P, .obj [("disconnectAll", .bool true), ("create", .arr [m0, m1])])], 2) := by
    simp [pushMutation, objGetD, objSet]
  have hd0 : (toString (0 : Nat)).data = ['0'] := rfl
  have hd1 : (toString (1 : Nat)).data = ['1'] := rfl
  have hs0 : P ++ "." ++ "create" ++ "[" ++ toString (1 - 1 : Nat) ++ "]" = P ++ ".create[0]" := by
    apply string_eq_of_data
    simp [String.data_append, hd0]
  have hs1 : P ++ "." ++ "create" ++ "[" ++ toString (2 - 1 : Nat) ++ "]" = P ++ ".create[1]" := by
    apply string_eq_of_data
    simp [String.data_append, hd1]
  have hpa : pushAll P "create" [m0, m1]
      [(P, .obj [("disconnectAll", .bool true), ("create", .arr [])])] [] =
      .ok ([(P, .obj [("disconnectAll", .bool true), ("create", .arr [m0, m1])])],
        [P ++ ".create[0]", P ++ ".create[1]"]) := by
    simp only [pushAll, hpush0, hpush1, List.nil_append, hs0]
    rw [hs1]
    rfl
  have hproc : processActions P [("create", .arr [m0, m1])]
      [(P, .obj [("disconnectAll", .bool true)])] [] =
      .ok ([(P, .obj [("disconnectAll", .bool true), ("create", .arr [m0, m1])])],
        [P ++ ".create[0]", P ++ ".create[1]"]) := by
    simp only [processActions, normalizeArr, hea, hpa]
  have hatt : attachMutationPaths (.mk "block" st sd snodes sex)
      [P ++ ".create[0]", P ++ ".create[1]"] =
      .ok (.mk "block" st
        (some (objSet (sd.getD []) "_mutationPaths"
          (.arr [.str (P ++ ".create[0]"), .str (P ++ ".create[1]")]))) snodes sex) := by
    simp [attachMutationPaths, SNode.data, SNode.object, SNode.type, SNode.nodes, SNode.extra,
      hfresh]
  simp only [serialiseVisitBlock, hlook, hm, hn, List.isEmpty_cons, hpf,
    Bool.false_eq_true, if_false, hgd, heb, hproc, hatt]

/-- Claim C1 as amended: positional integrity holds provided the handler's
path `P` is truthy and contains none of lodash's separator characters
(`.`, `[`, `]`), the handler's returned node is block-kind with no
pre-existing truthy `_mutationPaths`, and the two mutation results are
truthy.  Serializing the one-block document appends `[m0, m1]` to
`batch[P].create` in order and pushes exactly `P.create[0]`, `P.create[1]`
onto the node's `data._mutationPaths`; resolving the serialized document
against `{P: {create: [r0, r1]}}` yields that node with
`data._joinIds = [r0, r1]`. -/
theorem c1_theorem (t P st : String) (h : SerBlock)
    (bd sd : Option Data) (bns snodes : Option (List SNode)) (bex sex : Data)
    (m0 m1 r0 r1 : JsVal) (args : JsVal)
    (hpath : h.path = some P) (hP0 : P ≠ "")
    (hsep : ∀ c ∈ P.data, c ≠ '.' ∧ c ≠ '[' ∧ c ≠ ']')
    (hser : h.serialize ⟨.mk "document" "" none (some [.mk "block" t bd bns bex]) []⟩
        (.mk "block" t bd bns bex) =
      ⟨some [("create", .arr [m0, m1])], some (.mk "block" st sd snodes sex)⟩)
    (hfresh : truthy (objGetD (sd.getD []) "_mutationPaths") = false)
    (hr0 : truthy r0 = true) (hr1 : truthy r1 = true) :
    serialiseSlateValue ⟨.mk "document" "" none (some [.mk "block" t bd bns bex]) []⟩
        (fun s => if s = t then some h else none) =
      .ok ⟨.mk "document" "" none
          (some [.mk "block" st
            (some (objSet (sd.getD []) "_mutationPaths"
              (.arr [.str (P ++ ".create[0]"), .str (P ++ ".create[1]")]))) snodes sex]) [],
        [(P, .obj [("disconnectAll", .bool true), ("create", .arr [m0, m1])])]⟩ ∧
    processSerialised
        (.mk "document" "" none
          (some [.mk "block" st
            (some (objSet (sd.getD []) "_mutationPaths"
              (.arr [.str (P ++ ".create[0]"), .str (P ++ ".create[1]")]))) snodes sex]) [])
        [⟨st, fun _ => [(P, .obj [("create", .arr [r0, r1])])]⟩] args =
      .ok (.mk "document" "" none
        (some [.mk "block" st (some [("_joinIds", .arr [r0, r1])]) snodes sex]) []) := by
  constructor
  · have hlook : (fun s => if s = t then some h else none) (SNode.mk "block" t bd bns bex).type
        = some h := by
      simp [SNode.type]
    have hv := c1_visit (fun s => if s = t then some h else none)
      ⟨.mk "document" "" none (some [.mk "block" t bd bns bex]) []⟩
      (.mk "block" t bd bns bex) h P st sd snodes sex m0 m1 hlook hpath hP0 hser hfresh
    have hwb : serWalk (fun s => if s = t then some h else none)
        ⟨.mk "document" "" none (some [.mk "block" t bd bns bex]) []⟩
        (.mk "block" t bd bns bex) [] =
        .ok (.mk "block" st
            (some (objSet (sd.getD []) "_mutationPaths"
              (.arr [.str (P ++ ".create[0]"), .str (P ++ ".create[1]")]))) snodes sex,
          [(P, .obj [("disconnectAll", .bool true), ("create", .arr [m0, m1])])]) := by
      rw [serWalk_eq]
      simp only [SNode.object, reduceIte]
      rw [hv]
    have hdoc : ¬ (SNode.mk "document" "" none
        (some [SNode.mk "block" t bd bns bex]) []).object = "block" := by
      simp [SNode.object]
    simp only [serialiseSlateValue]
    rw [serWalk_eq, if_neg hdoc]
    simp only [serDefaultVisitor, serWalkList, hwb]
  · have hmuts : resolvedMutationsOf
        [⟨st, fun _ => [(P, .obj [("create", .arr [r0, r1])])]⟩] args =
        [(P, .obj [("create", .arr [r0, r1])])] := by
      simp [resolvedMutationsOf, objAssign, objSet]
    have hvr : resolveVisitBlock [⟨st, fun _ => [(P, .obj [("create", .arr [r0, r1])])]⟩]
        [(P, .obj [("create", .arr [r0, r1])])]
        (.mk "block" st
          (some (objSet (sd.getD []) "_mutationPaths"
            (.arr [.str (P ++ ".create[0]"), .str (P ++ ".create[1]")]))) snodes sex) =
        .ok (.mk "block" st (some [("_joinIds", .arr [r0, r1])]) snodes sex) := by
      have hcarry : carriesMutationPaths
          (.mk "block" st
            (some (objSet (sd.getD []) "_mutationPaths"
              (.arr [.str (P ++ ".create[0]"), .str (P ++ ".create[1]")]))) snodes sex) = true := by
        simp [carriesMutationPaths, SNode.data, objGetD_objSet_self, truthy]
      have hids : resolveJoinIds [(P, .obj [("create", .arr [r0, r1])])]
          [.str (P ++ ".create[0]"), .str (P ++ ".create[1]")] = .ok [r0, r1] := by
        simp only [resolveJoinIds, getByPathVal, getByPath_create0 P r0 r1 hsep,
          getByPath_create1 P r0 r1 hsep, hr0, hr1, if_true]
      simp only [resolveVisitBlock, hcarry, Bool.not_true, Bool.false_eq_true, if_false,
        List.find?, SNode.type, beq_self_eq_true, SNode.data, Option.getD_some,
        objGetD_objSet_self, hids, SNode.object, SNode.nodes, SNode.extra]
      simp
    simp only [processSerialised, hmuts, resWalk, SNode.object, String.reduceEq,
      Bool.false_eq_true, if_false, resWalkList, hvr]
    simp

/-- A concrete one-image handler for the witness of the amended claim. -/
def c1GoodBlock : SerBlock :=
  ⟨"img", some "images", fun _ _ =>
    ⟨some [("create", .arr [.num 1, .num 2])], some (.mk "block" "img" none none [])⟩⟩

/-- Claim C1, witness: the amended theorem at `P = "images"` produces the
two paths, the ordered batch, and `_joinIds = [r0, r1]`. -/
theorem c1_witness :
    serialiseSlateValue ⟨.mk "document" "" none (some [.mk "block" "img" none none []]) []⟩
        (fun s => if s = "img" then some c1GoodBlock else none) =
      .ok ⟨.mk "document" "" none
          (some [.mk "block" "img"
            (some (objSet ((none : Option Data).getD []) "_mutationPaths"
              (.arr [.str ("images" ++ ".create[0]"), .str ("images" ++ ".create[1]")]))) none []]) [],
        [("images", .obj [("disconnectAll", .bool true), ("create", .arr [.num 1, .num 2])])]⟩ ∧
    processSerialised
        (.mk "document" "" none
          (some [.mk "block" "img"
            (some (objSet ((none : Option Data).getD []) "_mutationPaths"
              (.arr [.str ("images" ++ ".create[0]"), .str ("images" ++ ".create[1]")]))) none []]) [])
        [⟨"img", fun _ => [("images", .obj [("create", .arr [.str "r0", .str "r1"])])]⟩] .null =
      .ok (.mk "document" "" none
        (some [.mk "block" "img" (some [("_joinIds", .arr [.str "r0", .str "r1"])]) none []]) []) :=
  c1_theorem "img" "images" "img" c1GoodBlock none none none none [] []
    (.num 1) (.num 2) (.str "r0") (.str "r1") .null
    rfl (by decide) (by decide) rfl rfl rfl rfl

end KeystoneContent

